import Mathlib

/-!
# BunLox verification

Shallow embedding of the bunlox tree-walk interpreter pipeline
(scanner → parser → resolver → evaluator) and proofs about the
properties claimed in its specification.

Conventions of the embedding:
* JavaScript numbers (IEEE doubles) are modelled as `Rat`. The claims
  settled here depend only on zero tests, equality of small integers and
  the type dispatch of operators, on which the two agree.
* JavaScript `Map` objects are modelled as insertion-ordered association
  lists (`Map.set` replaces in place or appends, `Map.get`/`Map.has`
  search by key), matching JS iteration/lookup semantics for the string
  keys used by the interpreter.
* Thrown JS exceptions become an `Except` result; mutations performed
  before a throw persist, so every evaluator function returns both its
  `Except` result and the state reached, mirroring JS exception
  semantics where side effects before the throw are kept.
* Environments are mutable shared frames in the source; they are
  modelled as an append-only store of frames addressed by index
  (`createEnvironment` appends, closures hold indices).
* The locals side-table is keyed by AST-node object identity in the
  source; identity is modelled by an explicit `id` field carried by
  `Expr.varE` and `Expr.assignment` nodes (the parser allocates fresh
  ids from a counter).
-/

namespace BunLox

/-- Primitive literal payloads (`Literal` in `core/token.ts`, restricted to
string | number | boolean | null as the scanner and AST use it). -/
inductive Prim where
  | num (n : Rat)
  | str (s : String)
  | bool (b : Bool)
  | nil
deriving DecidableEq, Repr

/-- Token kinds (`TokenType` in `core/token-types.ts`). -/
inductive TokType where
  | LEFT_PAREN | RIGHT_PAREN | LEFT_BRACE | RIGHT_BRACE
  | COMMA | DOT | MINUS | PLUS | SEMICOLON | STAR | SLASH | PERCENT
  | BANG | BANG_EQUAL | EQUAL | EQUAL_EQUAL
  | LESS | LESS_EQUAL | GREATER | GREATER_EQUAL
  | STRING | NUMBER | IDENTIFIER
  | AND | CLASS | ELSE | FALSE | FUN | FOR | IF | NIL | OR
  | PRINT | RETURN | SUPER | THIS | TRUE | VAR | WHILE | BREAK
  | EOF
deriving DecidableEq, Repr

/-- `Token` record (`core/token.ts`): kind, exact source lexeme, literal
payload for NUMBER/STRING tokens (else `nil`), 1-based line. -/
structure Token where
  type : TokType
  lexeme : String := ""
  literal : Prim := .nil
  line : Nat := 1
deriving DecidableEq, Repr

mutual

/-- Expression nodes (`core/expressions.ts`).  `varE` stands for the
source's `variable` variant (`variable` is reserved in Lean); `varE` and
`assignment` carry an explicit `id` modelling node object identity for
the resolver's locals side-table. -/
inductive Expr where
  | literal (value : Prim)
  | grouping (expression : Expr)
  | call (callee : Expr) (paren : Token) (args : List Expr)
  | anonymousFunction (parameters : List Token) (body : List Stmt)
  | binary (left : Expr) (operator : Token) (right : Expr)
  | logical (left : Expr) (operator : Token) (right : Expr)
  | unary (operator : Token) (right : Expr)
  | varE (id : Nat) (name : Token)
  | assignment (id : Nat) (name : Token) (value : Expr)

/-- Statement nodes (`core/statements.ts`). -/
inductive Stmt where
  | exprStmt (expression : Expr)
  | printStmt (expression : Expr)
  | returnStmt (keyword : Token) (value : Option Expr)
  | varDecl (name : Token) (initializer : Option Expr)
  | block (statements : List Stmt)
  | ifStmt (condition : Expr) (thenBranch : Stmt) (elseBranch : Option Stmt)
  | whileStmt (condition : Expr) (body : Stmt)
  | breakStmt (operator : Token)
  | functionStmt (name : Token) (parameters : List Token) (body : List Stmt)

end

/-- Runtime values (`Literal` in `core/literal.ts`): primitive values plus
callables.  `native` is a built-in (`createCallable`, e.g. `clock`);
`fn` is a user function (`createFunction`): declaration name (absent for
anonymous function expressions), parameters, body and the index of the
captured closure frame. -/
inductive Value where
  | num (n : Rat)
  | str (s : String)
  | bool (b : Bool)
  | nil
  | native (arity : Nat) (tag : Nat)
  | fn (declName : Option Token) (parameters : List Token) (body : List Stmt)
       (closure : Nat)

/-- Errors and non-local control signals of the evaluator
(`core/error.ts`).  `breakSig` is `BreakError`, `retSig` the `ReturnError`
raised by `return` statements and caught at call boundaries (the class
itself is absent from the snapshot; its payload and the `instanceof`
dispatch are taken from its uses in `interpreter` and `createFunction`).
`internal` models plain JS `Error` throws (never caught by the
interpreter); `noFuel` is the artifact of the fuel-indexed embedding and
corresponds to no source behaviour. -/
inductive LoxErr where
  | runtime (line : Nat) (msg : String)
  | breakSig (line : Nat) (msg : String)
  | retSig (value : Value)
  | internal (msg : String)
  | noFuel

/-! ## Association-list operations modelling JS `Map` -/

/-- `Map.get` on a string-keyed map. -/
def assocGet (l : List (String × Value)) (k : String) : Option Value :=
  match l with
  | [] => none
  | (k', v) :: rest => if k' = k then some v else assocGet rest k

/-- `Map.has`. -/
def assocHas (l : List (String × Value)) (k : String) : Bool :=
  match l with
  | [] => false
  | (k', _) :: rest => k' = k || assocHas rest k

/-- `Map.set`: replace in place if the key exists, else append. -/
def assocSet (l : List (String × Value)) (k : String) (v : Value) :
    List (String × Value) :=
  match l with
  | [] => [(k, v)]
  | (k', v') :: rest =>
      if k' = k then (k, v) :: rest else (k', v') :: assocSet rest k v

/-! ## Environment chain (`core/environment.ts`)

A frame is one `Environment`; the mutable heap of frames is a `Store`
(list indexed by creation order), and an environment reference is an
index into it. -/

structure Frame where
  values : List (String × Value)
  enclosing : Option Nat
  global : Option Nat

abbrev Store := List Frame

/-- `defineGlobals`: the root frame is seeded with the `clock` builtin. -/
def defineGlobalsList : List (String × Value) := [("clock", Value.native 0 0)]

/-- `createEnvironment`: appends a fresh frame to the store and returns its
index.  `global` is `null` for the root, else the enclosing frame's
`global ?? enclosing`. -/
def createEnvironment (st : Store) (enclosing : Option Nat) : Store × Nat :=
  let vals : List (String × Value) :=
    match enclosing with
    | none => defineGlobalsList
    | some _ => []
  let glob : Option Nat :=
    match enclosing with
    | none => none
    | some e =>
        some (match st.get? e with
              | some fr => fr.global.getD e
              | none => e)
  (st ++ [⟨vals, enclosing, glob⟩], st.length)

/-- The `values` table of frame `r` (out-of-range reads, impossible for
stores built by `createEnvironment`, give the empty table). -/
def valuesOf (st : Store) (r : Nat) : List (String × Value) :=
  match st.get? r with
  | some fr => fr.values
  | none => []

/-- The `enclosing` link of frame `r`. -/
def enclosingOf (st : Store) (r : Nat) : Option Nat :=
  (st.get? r).bind Frame.enclosing

/-- The `global` link of frame `r`. -/
def globalOf (st : Store) (r : Nat) : Option Nat :=
  (st.get? r).bind Frame.global

/-- Replace the `values` table of frame `r`. -/
def storeSetValues (st : Store) (r : Nat) (vals : List (String × Value)) :
    Store :=
  match st.get? r with
  | some fr => st.set r { fr with values := vals }
  | none => st

/-- The loop body of `ancestor`: `environment = environment?.enclosing ??
null`, iterated `i` times starting from `cur`. -/
def ancestorWalk (st : Store) (cur : Option Nat) : Nat → Option Nat
  | 0 => cur
  | i + 1 => ancestorWalk st ((cur.bind (enclosingOf st ·))) i

/-- `ancestor(distance)` of frame `ref`: `undefined` distance returns the
`global` link (possibly `null`); a numeric distance starts from
`enclosing` and follows `distance - 1` further links (`for i = 1; i <
distance`), throwing a plain `Error` if the result is `null`. -/
def ancestor (st : Store) (ref : Nat) (d : Option Nat) :
    Except LoxErr (Option Nat) :=
  match d with
  | none => .ok (globalOf st ref)
  | some dist =>
      match ancestorWalk st (enclosingOf st ref) (dist - 1) with
      | none => .error (.internal
          ("Can't find environment at distance " ++ toString dist ++ "."))
      | some r => .ok (some r)

/-- The frame whose `values` table `get`/`assign` target:
`(distance !== 0 && ancestor(distance)?.values) || values` — the own
frame for distance 0, the `ancestor` frame for an explicit distance, the
`global` link (or, when that is `null` on the root, the own frame) when
no distance is supplied. -/
def envTargetRef (st : Store) (ref : Nat) (d : Option Nat) :
    Except LoxErr Nat :=
  if d = some 0 then .ok ref
  else
    match ancestor st ref d with
    | .error e => .error e
    | .ok none => .ok ref
    | .ok (some r) => .ok r

/-- `get(name, distance?)`: look the name up in the target frame's table
only; a miss raises `Undefined variable '<name>'.`. -/
def envGet (st : Store) (ref : Nat) (name : Token) (d : Option Nat) :
    Except LoxErr Value :=
  match envTargetRef st ref d with
  | .error e => .error e
  | .ok r =>
      match assocGet (valuesOf st r) name.lexeme with
      | some v => .ok v
      | none => .error (.runtime name.line
          ("Undefined variable '" ++ name.lexeme ++ "'."))

/-- `assign(name, value, distance?)`: same target-frame selection as
`get`; assigning a name the target does not hold raises
`Undefined variable '<name>'.`, else the entry is updated in place. -/
def envAssign (st : Store) (ref : Nat) (name : Token) (v : Value)
    (d : Option Nat) : Except LoxErr Store :=
  match envTargetRef st ref d with
  | .error e => .error e
  | .ok r =>
      if assocHas (valuesOf st r) name.lexeme then
        .ok (storeSetValues st r (assocSet (valuesOf st r) name.lexeme v))
      else
        .error (.runtime name.line
          ("Undefined variable '" ++ name.lexeme ++ "'."))

/-- `define(name, value)`: re-defining a name already present in a
non-global frame raises `has already been declared`; the global frame
redefines freely. -/
def envDefine (st : Store) (ref : Nat) (name : Token) (v : Value) :
    Except LoxErr Store :=
  if (enclosingOf st ref).isSome && assocHas (valuesOf st ref) name.lexeme then
    .error (.runtime name.line
      ("Variable '" ++ name.lexeme ++ "' has already been declared."))
  else
    .ok (storeSetValues st ref (assocSet (valuesOf st ref) name.lexeme v))

/-! ## Pure value operations of the evaluator (`interpreter.ts`) -/

/-- `isTruthy`: `null`/`undefined` and `false` are falsy, everything else
truthy. -/
def isTruthy : Value → Bool
  | .nil => false
  | .bool b => b
  | _ => true

/-- Typeof dispatch: `typeof v === "number"`. -/
def isNumberV : Value → Bool
  | .num _ => true
  | _ => false

/-- Typeof dispatch: `typeof v === "string" || typeof v === "number"`
(booleans are `"boolean"`, `null` and callables are `"object"`). -/
def isStrOrNumV : Value → Bool
  | .num _ => true
  | .str _ => true
  | _ => false

/-- `ensureNumber`: non-numbers raise
`Operand of <lexeme> must be a number`. -/
def ensureNumber (v : Value) (op : Token) : Except LoxErr Rat :=
  match v with
  | .num n => .ok n
  | _ => .error (.runtime op.line
      ("Operand of " ++ op.lexeme ++ " must be a number"))

/-- JS `===` on the value kinds the interpreter stores.  Primitives
compare by value; callable identity (reference equality in JS) is not
representable structurally, so callables compare unequal — no claim
settled here touches callable equality. -/
def strictEq : Value → Value → Bool
  | .num a, .num b => a = b
  | .str a, .str b => a = b
  | .bool a, .bool b => a = b
  | _, _ => false

/-- `isEqual`: `nil`/absent are mutually equal, otherwise JS `===`. -/
def isEqualV (a b : Value) : Bool :=
  match a with
  | .nil => match b with
            | .nil => true
            | _ => false
  | _ => strictEq a b

/-- Truncation toward zero, the rounding JS `%` uses. -/
def ratTrunc (q : Rat) : Int :=
  if 0 ≤ q then ⌊q⌋ else ⌈q⌉

/-- JS remainder `a % b` (for `b ≠ 0`): `a - b * trunc(a / b)`. -/
def jsRem (a b : Rat) : Rat :=
  a - b * (ratTrunc (a / b) : Rat)

/-- JS number-to-string conversion, exact for integral values (the only
values whose spelling any claim could observe); non-integral rationals
are given a placeholder spelling since IEEE double formatting is not
modelled. -/
def jsNumToString (q : Rat) : String :=
  if q.den = 1 then toString q.num else toString q

/-- The string conversion a JS template literal applies to each operand
of the `+` concatenation branch (`\x7b$left\x7d$\x7bright\x7d`); includes the
`toString` of callables from `createCallable`/`createFunction`. -/
def jsTemplateStr : Value → String
  | .num n => jsNumToString n
  | .str s => s
  | .bool b => if b then "true" else "false"
  | .nil => "null"
  | .native _ _ => "<fn>"
  | .fn (some t) _ _ _ => "<fn " ++ t.lexeme ++ ">"
  | .fn none _ _ _ => "<fn anonymous>"

/-- Spelling of a token kind, as interpolated by the interpreter's
`Unknown ... operator` messages (`${expr.operator.type}`). -/
def tokTypeName : TokType → String
  | .LEFT_PAREN => "LEFT_PAREN" | .RIGHT_PAREN => "RIGHT_PAREN"
  | .LEFT_BRACE => "LEFT_BRACE" | .RIGHT_BRACE => "RIGHT_BRACE"
  | .COMMA => "COMMA" | .DOT => "DOT" | .MINUS => "MINUS" | .PLUS => "PLUS"
  | .SEMICOLON => "SEMICOLON" | .STAR => "STAR" | .SLASH => "SLASH"
  | .PERCENT => "PERCENT" | .BANG => "BANG" | .BANG_EQUAL => "BANG_EQUAL"
  | .EQUAL => "EQUAL" | .EQUAL_EQUAL => "EQUAL_EQUAL" | .LESS => "LESS"
  | .LESS_EQUAL => "LESS_EQUAL" | .GREATER => "GREATER"
  | .GREATER_EQUAL => "GREATER_EQUAL" | .STRING => "STRING"
  | .NUMBER => "NUMBER" | .IDENTIFIER => "IDENTIFIER" | .AND => "AND"
  | .CLASS => "CLASS" | .ELSE => "ELSE" | .FALSE => "FALSE" | .FUN => "FUN"
  | .FOR => "FOR" | .IF => "IF" | .NIL => "NIL" | .OR => "OR"
  | .PRINT => "PRINT" | .RETURN => "RETURN" | .SUPER => "SUPER"
  | .THIS => "THIS" | .TRUE => "TRUE" | .VAR => "VAR" | .WHILE => "WHILE"
  | .BREAK => "BREAK" | .EOF => "EOF"

/-- `visitUnary` after the operand has been evaluated. -/
def visitUnaryOp (op : Token) (right : Value) : Except LoxErr Value :=
  match op.type with
  | .MINUS =>
      match ensureNumber right op with
      | .ok n => .ok (.num (-n))
      | .error e => .error e
  | .BANG => .ok (.bool (!(isTruthy right)))
  | _ => .error (.runtime op.line
      ("Unknown unary operator: " ++ tokTypeName op.type))

/-- `visitBinary` after both operands have been evaluated: the full
operator dispatch of the interpreter, including the zero checks of `/`
and `%` and the number/string rule of `+`. -/
def visitBinaryOp (op : Token) (left right : Value) : Except LoxErr Value :=
  match op.type with
  | .GREATER =>
      match ensureNumber left op with
      | .error e => .error e
      | .ok a =>
          match ensureNumber right op with
          | .error e => .error e
          | .ok b => .ok (.bool (decide (a > b)))
  | .GREATER_EQUAL =>
      match ensureNumber left op with
      | .error e => .error e
      | .ok a =>
          match ensureNumber right op with
          | .error e => .error e
          | .ok b => .ok (.bool (decide (a ≥ b)))
  | .LESS =>
      match ensureNumber left op with
      | .error e => .error e
      | .ok a =>
          match ensureNumber right op with
          | .error e => .error e
          | .ok b => .ok (.bool (decide (a < b)))
  | .LESS_EQUAL =>
      match ensureNumber left op with
      | .error e => .error e
      | .ok a =>
          match ensureNumber right op with
          | .error e => .error e
          | .ok b => .ok (.bool (decide (a ≤ b)))
  | .MINUS =>
      match ensureNumber left op with
      | .error e => .error e
      | .ok a =>
          match ensureNumber right op with
          | .error e => .error e
          | .ok b => .ok (.num (a - b))
  | .SLASH =>
      match ensureNumber left op with
      | .error e => .error e
      | .ok a =>
          match ensureNumber right op with
          | .error e => .error e
          | .ok b =>
              if b = 0 then .error (.runtime op.line "Division by zero")
              else .ok (.num (a / b))
  | .STAR =>
      match ensureNumber left op with
      | .error e => .error e
      | .ok a =>
          match ensureNumber right op with
          | .error e => .error e
          | .ok b => .ok (.num (a * b))
  | .PERCENT =>
      match ensureNumber left op with
      | .error e => .error e
      | .ok a =>
          match ensureNumber right op with
          | .error e => .error e
          | .ok b =>
              if b = 0 then .error (.runtime op.line "Division by zero")
              else .ok (.num (jsRem a b))
  | .PLUS =>
      match left, right with
      | .num a, .num b => .ok (.num (a + b))
      | _, _ =>
          if isStrOrNumV left && isStrOrNumV right then
            .ok (.str (jsTemplateStr left ++ jsTemplateStr right))
          else
            .error (.runtime op.line
              ("Operands of " ++ op.lexeme ++ " must be numbers or strings"))
  | .EQUAL_EQUAL => .ok (.bool (isEqualV left right))
  | .BANG_EQUAL => .ok (.bool (!(isEqualV left right)))
  | _ => .error (.runtime op.line
      ("Unknown binary operator: " ++ tokTypeName op.type))

/-! ## The evaluator (`interpreter.ts`, latest snapshot) -/

/-- Evaluation context: current environment reference and the resolver's
locals side-table (node id ↦ binding distance).  The locals map is the
same object in every context of a run, so capturing the call-site copy
in closures is equivalent to the source's capture of the defining
context. -/
structure Ctx where
  envRef : Nat
  locals : List (Nat × Nat)

/-- `locals.get(expr)` keyed by node id. -/
def localsGet (l : List (Nat × Nat)) (k : Nat) : Option Nat :=
  match l with
  | [] => none
  | (k', v) :: rest => if k' = k then some v else localsGet rest k

/-- Mutable interpreter state: the heap of environment frames and the
sequence of values printed so far (`print` output; the textual
stringification is presentation-only and not modelled). -/
structure EState where
  store : Store
  output : List Value

/-- A step result: the `Except` outcome together with the state reached,
which persists even when an exception is thrown. -/
abbrev Res (α : Type) := Except LoxErr α × EState

/-- Prim literals become runtime values unchanged (`visitLiteral`). -/
def primToValue : Prim → Value
  | .num n => .num n
  | .str s => .str s
  | .bool b => .bool b
  | .nil => .nil

/-- `isCallable`: the value is an object with a `call` member. -/
def isCallable : Value → Bool
  | .native _ _ => true
  | .fn _ _ _ _ => true
  | _ => false

/-- `arity` of a callable (`createCallable` field / `createFunction`
getter). -/
def arityOf : Value → Nat
  | .native a _ => a
  | .fn _ ps _ _ => ps.length
  | _ => 0

/-- The parameter-binding loop of `createFunction.call`: each parameter
is `define`d positionally in the fresh scope; a missing argument throws
a plain `Error` (unreachable after the arity check). -/
def bindParams (ps : List Token) (args : List Value) (store : Store)
    (scope : Nat) : Except LoxErr Store :=
  match ps, args with
  | [], _ => .ok store
  | _ :: _, [] => .error (.internal "Argument is undefined")
  | p :: ps', a :: args' =>
      match envDefine store scope p a with
      | .error e => .error e
      | .ok store' => bindParams ps' args' store' scope

mutual

/-- `evaluateExpr` of the interpreter, indexed by fuel (the source
recursion is unbounded); `noFuel` results are artifacts of the
embedding. -/
def evalExpr : Nat → Expr → Ctx → EState → Res Value
  | 0, _, _, st => (.error .noFuel, st)
  | fuel + 1, e, ctx, st =>
      match e with
      | .literal p => (.ok (primToValue p), st)
      | .grouping inner => evalExpr fuel inner ctx st
      | .unary op right =>
          match evalExpr fuel right ctx st with
          | (.error err, st') => (.error err, st')
          | (.ok rv, st') => (visitUnaryOp op rv, st')
      | .binary left op right =>
          match evalExpr fuel left ctx st with
          | (.error err, st') => (.error err, st')
          | (.ok lv, st') =>
              match evalExpr fuel right ctx st' with
              | (.error err, st'') => (.error err, st'')
              | (.ok rv, st'') => (visitBinaryOp op lv rv, st'')
      | .logical left op right =>
          match evalExpr fuel left ctx st with
          | (.error err, st') => (.error err, st')
          | (.ok lv, st') =>
              if op.type = .OR then
                if isTruthy lv then (.ok lv, st')
                else evalExpr fuel right ctx st'
              else
                if !(isTruthy lv) then (.ok lv, st')
                else evalExpr fuel right ctx st'
      | .varE id name =>
          (envGet st.store ctx.envRef name (localsGet ctx.locals id), st)
      | .assignment id name value =>
          match evalExpr fuel value ctx st with
          | (.error err, st') => (.error err, st')
          | (.ok v, st') =>
              match envAssign st'.store ctx.envRef name v
                  (localsGet ctx.locals id) with
              | .error err => (.error err, st')
              | .ok store' => (.ok v, { st' with store := store' })
      | .call callee paren args =>
          match evalExpr fuel callee ctx st with
          | (.error err, st') => (.error err, st')
          | (.ok cv, st') =>
              match evalArgs fuel args ctx st' with
              | (.error err, st'') => (.error err, st'')
              | (.ok avs, st'') =>
                  if !(isCallable cv) then
                    (.error (.runtime paren.line
                      "Can only call functions and classes."), st'')
                  else if avs.length ≠ arityOf cv then
                    (.error (.runtime paren.line
                      ("Expected " ++ toString (arityOf cv) ++
                       " arguments but got " ++ toString avs.length ++ ".")),
                     st'')
                  else callValue fuel cv avs ctx st''
      | .anonymousFunction ps body =>
          (.ok (.fn none ps body ctx.envRef), st)

/-- Left-to-right evaluation of a call's argument list. -/
def evalArgs : Nat → List Expr → Ctx → EState → Res (List Value)
  | 0, _, _, st => (.error .noFuel, st)
  | fuel + 1, es, ctx, st =>
      match es with
      | [] => (.ok [], st)
      | e :: rest =>
          match evalExpr fuel e ctx st with
          | (.error err, st') => (.error err, st')
          | (.ok v, st') =>
              match evalArgs fuel rest ctx st' with
              | (.error err, st'') => (.error err, st'')
              | (.ok vs, st'') => (.ok (v :: vs), st'')

/-- `callee.call(args, ...)`: a native builtin (`clock`) yields a host
value — the host clock is not modelled and stands for an unspecified
number; a user function runs its body in a fresh scope chained to the
captured closure, catching exactly the return signal
(`createFunction`). -/
def callValue : Nat → Value → List Value → Ctx → EState → Res Value
  | 0, _, _, _, st => (.error .noFuel, st)
  | _ + 1, .native _ _, _, _, st => (.ok (.num 0), st)
  | fuel + 1, .fn _ ps body closure, args, ctx, st =>
      let (store', scope) := createEnvironment st.store (some closure)
      match bindParams ps args store' scope with
      | .error err => (.error err, { st with store := store' })
      | .ok store'' =>
          match execBlock fuel body { ctx with envRef := scope }
              { st with store := store'' } with
          | (.ok _, st') => (.ok .nil, st')
          | (.error (.retSig v), st') => (.ok v, st')
          | (.error err, st') => (.error err, st')
  | _ + 1, _, _, _, st =>
      (.error (.internal "not callable"), st)

/-- `executeBlock`: a fresh frame scoped to the current environment, the
statements run inside it, result `undefined`. -/
def execBlock : Nat → List Stmt → Ctx → EState → Res (Option Value)
  | 0, _, _, st => (.error .noFuel, st)
  | fuel + 1, stmts, ctx, st =>
      let (store', r) := createEnvironment st.store (some ctx.envRef)
      match execSeq fuel stmts { ctx with envRef := r }
          { st with store := store' } with
      | (.error err, st') => (.error err, st')
      | (.ok _, st') => (.ok none, st')

/-- Sequential statement execution (the `for` loops of `interpret` and
`executeBlock`); the first exception aborts the rest. -/
def execSeq : Nat → List Stmt → Ctx → EState → Res Unit
  | 0, _, _, st => (.error .noFuel, st)
  | fuel + 1, stmts, ctx, st =>
      match stmts with
      | [] => (.ok (), st)
      | s :: rest =>
          match execStmt fuel s ctx st with
          | (.error err, st') => (.error err, st')
          | (.ok _, st') => execSeq fuel rest ctx st'

/-- `executeStmt` of the interpreter: returns the value of a bare
expression statement (used by REPL display) and `none` for every other
statement form. -/
def execStmt : Nat → Stmt → Ctx → EState → Res (Option Value)
  | 0, _, _, st => (.error .noFuel, st)
  | fuel + 1, s, ctx, st =>
      match s with
      | .exprStmt e =>
          match evalExpr fuel e ctx st with
          | (.error err, st') => (.error err, st')
          | (.ok v, st') => (.ok (some v), st')
      | .printStmt e =>
          match evalExpr fuel e ctx st with
          | (.error err, st') => (.error err, st')
          | (.ok v, st') => (.ok none, { st' with output := st'.output ++ [v] })
      | .varDecl name init =>
          match (match init with
                 | none => (Except.ok Value.nil, st)
                 | some e => evalExpr fuel e ctx st) with
          | (.error err, st') => (.error err, st')
          | (.ok v, st') =>
              match envDefine st'.store ctx.envRef name v with
              | .error err => (.error err, st')
              | .ok store' => (.ok none, { st' with store := store' })
      | .block stmts => execBlock fuel stmts ctx st
      | .ifStmt cond thenB elseB =>
          match evalExpr fuel cond ctx st with
          | (.error err, st') => (.error err, st')
          | (.ok c, st') =>
              if isTruthy c then
                match execStmt fuel thenB ctx st' with
                | (.error err, st'') => (.error err, st'')
                | (.ok _, st'') => (.ok none, st'')
              else
                match elseB with
                | some eb =>
                    match execStmt fuel eb ctx st' with
                    | (.error err, st'') => (.error err, st'')
                    | (.ok _, st'') => (.ok none, st'')
                | none => (.ok none, st')
      | .whileStmt cond body =>
          match evalExpr fuel cond ctx st with
          | (.error err, st') => (.error err, st')
          | (.ok c, st') =>
              if isTruthy c then
                match execStmt fuel body ctx st' with
                | (.error (.breakSig _ _), st'') => (.ok none, st'')
                | (.error err, st'') => (.error err, st'')
                | (.ok _, st'') => execStmt fuel (.whileStmt cond body) ctx st''
              else (.ok none, st')
      | .breakStmt op =>
          (.error (.breakSig op.line "Break outside of loop."), st)
      | .returnStmt _ value =>
          match (match value with
                 | none => (Except.ok Value.nil, st)
                 | some e => evalExpr fuel e ctx st) with
          | (.error err, st') => (.error err, st')
          | (.ok v, st') => (.error (.retSig v), st')
      | .functionStmt name ps body =>
          match envDefine st.store ctx.envRef name
              (.fn (some name) ps body ctx.envRef) with
          | .error err => (.error err, st)
          | .ok store' => (.ok none, { st with store := store' })

end

/-- `interpret(statements, options)` with a fresh global environment:
runs the statements sequentially against it (REPL echo of expression
results is presentation-only and not modelled). -/
def interpretProgram (fuel : Nat) (stmts : List Stmt)
    (locals : List (Nat × Nat)) : Res Unit :=
  let (store, g) := createEnvironment [] none
  execSeq fuel stmts ⟨g, locals⟩ ⟨store, []⟩

/-! ## Resolver (`resolver.ts`) -/

/-- `ParseError` data (`core/error.ts` `parseError`): line, the
`" at ..."` location text, and the message. -/
structure PError where
  line : Nat
  loc : String
  msg : String
deriving DecidableEq, Repr

/-- `parseError(token, message)`. -/
def parseErrorOf (t : Token) (msg : String) : PError :=
  { line := t.line
    loc := if t.type = .EOF then " at end" else " at '" ++ t.lexeme ++ "'"
    msg := msg }

/-- Scope types of the resolver. -/
inductive ScopeType where
  | global
  | function
  | loop
deriving DecidableEq, Repr

/-- One lexical scope: its type and the name ↦ defined? table. -/
structure RScope where
  stype : ScopeType
  vars : List (String × Bool)
deriving DecidableEq, Repr

/-- The three observable states of a name in the innermost scope. -/
inductive DefinedType where
  | defined
  | not_defined
  | not_declared
deriving DecidableEq, Repr

/-- Resolver state.  The scope stack is kept innermost-first (the source
array keeps the top at the end).  `declErrors` is the `errors` array
closed over by `createResolver` — the one `scope.declare` pushes to;
`errs` is the *separate* `errors: []` array of the object
`createResolver` returns — the one the visitors push to and the only one
`resolve` inspects at the end. -/
structure RState where
  scopes : List RScope
  declErrors : List PError
  errs : List PError
  locals : List (Nat × Nat)
deriving DecidableEq, Repr

def initRState : RState := ⟨[], [], [], []⟩

/-- Boolean-valued association list helpers for scope tables. -/
def assocGetB (l : List (String × Bool)) (k : String) : Option Bool :=
  match l with
  | [] => none
  | (k', v) :: rest => if k' = k then some v else assocGetB rest k

def assocHasB (l : List (String × Bool)) (k : String) : Bool :=
  match l with
  | [] => false
  | (k', _) :: rest => k' = k || assocHasB rest k

def assocSetB (l : List (String × Bool)) (k : String) (v : Bool) :
    List (String × Bool) :=
  match l with
  | [] => [(k, v)]
  | (k', v') :: rest =>
      if k' = k then (k, v) :: rest else (k', v') :: assocSetB rest k v

/-- Nat-keyed `Map.set` for the locals table. -/
def localsSet (l : List (Nat × Nat)) (k v : Nat) : List (Nat × Nat) :=
  match l with
  | [] => [(k, v)]
  | (k', v') :: rest =>
      if k' = k then (k, v) :: rest else (k', v') :: localsSet rest k v

/-- `scope.push`. -/
def scopePush (st : RState) (ty : ScopeType) : RState :=
  { st with scopes := ⟨ty, []⟩ :: st.scopes }

/-- `scope.pop`. -/
def scopePop (st : RState) : RState :=
  { st with scopes := st.scopes.tail }

/-- `scope.declare`: a name already present in the innermost scope pushes
an `already declared in this scope` error — onto the dead `declErrors`
array — and the name is then (re)marked not-yet-defined either way;
with no scope open (global) nothing happens. -/
def scopeDeclare (st : RState) (name : Token) : RState :=
  match st.scopes with
  | [] => st
  | sc :: rest =>
      let st' :=
        if assocHasB sc.vars name.lexeme then
          { st with declErrors := st.declErrors ++
              [parseErrorOf name
                ("Variable with name '" ++ name.lexeme ++
                 "' already declared in this scope.")] }
        else st
      { st' with scopes :=
          { sc with vars := assocSetB sc.vars name.lexeme false } :: rest }

/-- `scope.define`. -/
def scopeDefine (st : RState) (name : Token) : RState :=
  match st.scopes with
  | [] => st
  | sc :: rest =>
      { st with scopes :=
          { sc with vars := assocSetB sc.vars name.lexeme true } :: rest }

/-- `scope.get`: the state of a name in the innermost scope only. -/
def scopeGet (st : RState) (name : Token) : DefinedType :=
  match st.scopes with
  | [] => .not_declared
  | sc :: _ =>
      match assocGetB sc.vars name.lexeme with
      | none => .not_declared
      | some true => .defined
      | some false => .not_defined

/-- The scan of `resolveLocal`: distance of the innermost scope holding
the name (0 = innermost). -/
def scopeFind (scopes : List RScope) (lexeme : String) : Option Nat :=
  match scopes with
  | [] => none
  | sc :: rest =>
      if assocHasB sc.vars lexeme then some 0
      else (scopeFind rest lexeme).map (· + 1)

/-- `resolveLocal(expr, name)`: record the binding distance for the node
when some open scope holds the name, else record nothing. -/
def resolveLocalF (st : RState) (exprId : Nat) (name : Token) : RState :=
  match scopeFind st.scopes name.lexeme with
  | some d => { st with locals := localsSet st.locals exprId d }
  | none => st

mutual

/-- `resolveExpr`. -/
def resolveExpr : Expr → RState → RState
  | .literal _, st => st
  | .grouping inner, st => resolveExpr inner st
  | .unary _ right, st => resolveExpr right st
  | .binary left _ right, st => resolveExpr right (resolveExpr left st)
  | .logical left _ right, st => resolveExpr right (resolveExpr left st)
  | .varE id name, st =>
      let st' :=
        if scopeGet st name = .not_defined then
          { st with errs := st.errs ++
              [parseErrorOf name
                "Can't read local variable in its own initializer."] }
        else st
      resolveLocalF st' id name
  | .assignment id name value, st =>
      resolveLocalF (resolveExpr value st) id name
  | .call callee _ args, st => resolveExprList args (resolveExpr callee st)
  | .anonymousFunction ps body, st => resolveFunctionR ps body .function st

def resolveExprList : List Expr → RState → RState
  | [], st => st
  | e :: rest, st => resolveExprList rest (resolveExpr e st)

/-- `resolveFunction`: a fresh scope of the given type (always
`function` at both call sites), parameters declared and defined, body
resolved at that type. -/
def resolveFunctionR (ps : List Token) (body : List Stmt) (ty : ScopeType)
    (st : RState) : RState :=
  let st := scopePush st ty
  let st := ps.foldl (fun acc p => scopeDefine (scopeDeclare acc p) p) st
  let st := resolveStmtList body ty st
  scopePop st

/-- One statement of `resolveStmts`. -/
def resolveStmt : Stmt → ScopeType → RState → RState
  | .block stmts, ty, st =>
      scopePop (resolveStmtList stmts ty (scopePush st ty))
  | .varDecl name init, _, st =>
      let st := scopeDeclare st name
      let st :=
        match init with
        | some e => resolveExpr e st
        | none => st
      scopeDefine st name
  | .functionStmt name ps body, _, st =>
      resolveFunctionR ps body .function (scopeDefine (scopeDeclare st name) name)
  | .exprStmt e, _, st => resolveExpr e st
  | .ifStmt cond thenB elseB, ty, st =>
      let st := resolveExpr cond st
      let st := resolveStmt thenB ty st
      match elseB with
      | some eb => resolveStmt eb ty st
      | none => st
  | .whileStmt cond body, _, st =>
      resolveStmt body .loop (resolveExpr cond st)
  | .breakStmt op, ty, st =>
      if ty ≠ .loop then
        { st with errs := st.errs ++
            [parseErrorOf op "Can't break outside of a loop."] }
      else st
  | .returnStmt keyword value, ty, st =>
      let st :=
        if ty = .global then
          { st with errs := st.errs ++
              [parseErrorOf keyword "Can't return from top-level code."] }
        else st
      match value with
      | some e => resolveExpr e st
      | none => st
  | .printStmt e, _, st => resolveExpr e st

def resolveStmtList : List Stmt → ScopeType → RState → RState
  | [], _, st => st
  | s :: rest, ty, st => resolveStmtList rest ty (resolveStmt s ty st)

end

/-- The full resolver pass: final state after walking the program at
global scope type. -/
def resolveFull (stmts : List Stmt) : RState :=
  resolveStmtList stmts .global initRState

/-- `resolve(statements)`: raises the aggregate `Resolver error` exactly
when the *returned object's* error array — which the dead
`declErrors` is not — is non-empty, else yields the locals map. -/
def resolveProgram (stmts : List Stmt) :
    Except (List PError) (List (Nat × Nat)) :=
  let st := resolveFull stmts
  if st.errs ≠ [] then .error st.errs else .ok st.locals

/-! ## Scanner (`scanner.ts`, generator snapshot with escape support) -/

/-- `SyntaxError` data (`core/error.ts` `syntaxError`): line and message. -/
structure SErr where
  line : Nat
  msg : String
deriving DecidableEq, Repr

/-- `source[i] ?? "\0"`. -/
def charAt (src : List Char) (i : Nat) : Char :=
  (src.get? i).getD '\x00'

/-- `source[i - 1] ?? "\0"` (the scanner's `peek(-1)`). -/
def charBefore (src : List Char) (i : Nat) : Char :=
  if i = 0 then '\x00' else charAt src (i - 1)

/-- `source.slice(start, stop)`. -/
def sliceStr (src : List Char) (start stop : Nat) : String :=
  String.mk ((src.drop start).take (stop - start))

def isDigitC (c : Char) : Bool := '0' ≤ c && c ≤ '9'

def isAlphaC (c : Char) : Bool :=
  ('a' ≤ c && c ≤ 'z') || ('A' ≤ c && c ≤ 'Z') || c = '_'

def isAlphaNumC (c : Char) : Bool := isAlphaC c || isDigitC c

/-- `TOKEN_KEYWORDS` (`token-keywords.ts`; note: no `break` entry in the
snapshot's table). -/
def keywordLookup (s : String) : Option TokType :=
  if s = "and" then some .AND else if s = "class" then some .CLASS
  else if s = "else" then some .ELSE else if s = "false" then some .FALSE
  else if s = "fun" then some .FUN else if s = "for" then some .FOR
  else if s = "if" then some .IF else if s = "nil" then some .NIL
  else if s = "or" then some .OR else if s = "print" then some .PRINT
  else if s = "return" then some .RETURN else if s = "super" then some .SUPER
  else if s = "this" then some .THIS else if s = "true" then some .TRUE
  else if s = "var" then some .VAR else if s = "while" then some .WHILE
  else none

/-- `parseFloat` on a scanned digit sequence with optional fractional
part (always of that shape when the scanner calls it); exact as a
rational. -/
def natOfDigits (cs : List Char) : Nat :=
  cs.foldl (fun a c => a * 10 + (c.toNat - '0'.toNat)) 0

def parseFloatModel (cs : List Char) : Rat :=
  let intPart := cs.takeWhile (· ≠ '.')
  let fracPart := (cs.dropWhile (· ≠ '.')).drop 1
  (natOfDigits intPart : Rat) +
    (natOfDigits fracPart : Rat) / ((10 : Rat) ^ fracPart.length)

/-- `processEscapeSequences`: decode the supported escapes, record an
`Invalid escape sequence` error for an unknown one and keep the escaped
character itself, and pass other characters (including a trailing lone
backslash) through. -/
def processEscape : List Char → Nat → List SErr → String × List SErr
  | [], _, errs => ("", errs)
  | '\\' :: next :: rest, line, errs =>
      let (repl, errs1) : String × List SErr :=
        match next with
        | 'n' => ("\n", errs)
        | 't' => ("\t", errs)
        | 'r' => ("\r", errs)
        | '"' => ("\"", errs)
        | '\\' => ("\\", errs)
        | c => (String.mk [c],
            errs ++ [⟨line, "Invalid escape sequence: \\" ++ String.mk [c]⟩])
      let (s, errs2) := processEscape rest line errs1
      (repl ++ s, errs2)
  | c :: rest, line, errs =>
      let (s, errs') := processEscape rest line errs
      (String.mk [c] ++ s, errs')

/-- The scan loop of `scanString`: advance while the current character
is not a `"` *or* the previous character is a backslash, counting
newlines; returns the position and line where the loop stops.  A fuel of
`src.length + 1` always suffices (each step advances). -/
def scanStringGo (src : List Char) : Nat → Nat → Nat → Nat × Nat
  | current, line, 0 => (current, line)
  | current, line, fuel + 1 =>
      if current < src.length &&
          (charAt src current ≠ '"' || charBefore src current = '\\') then
        let line' := if charAt src current = '\n' then line + 1 else line
        scanStringGo src (current + 1) line' fuel
      else (current, line)

/-- The comment loop: `while (peek() !== "\n" && !isAtEnd()) advance()`. -/
def skipComment (src : List Char) (i : Nat) : Nat :=
  i + ((src.drop i).takeWhile (· ≠ '\n')).length

/-- One full `scanString` step, entered with the opening quote already
consumed at `start`: on reaching end-of-input an `Unterminated string.`
error is recorded and no token produced; otherwise the closing quote is
consumed and the raw payload is unescaped by `processEscape`.  Returns
(position, line, errors, optional token). -/
def scanStringStep (src : List Char) (start current line : Nat)
    (errs : List SErr) : Nat × Nat × List SErr × Option Token :=
  let (cur', line') := scanStringGo src current line (src.length + 1)
  if cur' ≥ src.length then
    (cur', line', errs ++ [⟨line', "Unterminated string."⟩], none)
  else
    let cur'' := cur' + 1
    let raw := (src.drop (start + 1)).take (cur' - (start + 1))
    let (value, errs') := processEscape raw line' errs
    (cur'', line', errs',
     some ⟨.STRING, sliceStr src start cur'', .str value, line'⟩)

/-- The two-character operator table (`TWO_CHAR_OPERATORS`). -/
def twoCharOp (c : Char) : Option (TokType × TokType) :=
  if c = '!' then some (.BANG_EQUAL, .BANG)
  else if c = '=' then some (.EQUAL_EQUAL, .EQUAL)
  else if c = '<' then some (.LESS_EQUAL, .LESS)
  else if c = '>' then some (.GREATER_EQUAL, .GREATER)
  else none

/-- The single-character token table (`SINGLE_TOKENS`; the `/` entry is
shadowed by the earlier comment branch, as in the source's dispatch
order). -/
def singleTok (c : Char) : Option TokType :=
  if c = '(' then some .LEFT_PAREN else if c = ')' then some .RIGHT_PAREN
  else if c = '{' then some .LEFT_BRACE else if c = '}' then some .RIGHT_BRACE
  else if c = ',' then some .COMMA else if c = '.' then some .DOT
  else if c = '-' then some .MINUS else if c = '+' then some .PLUS
  else if c = ';' then some .SEMICOLON else if c = '*' then some .STAR
  else if c = '/' then some .SLASH else if c = '%' then some .PERCENT
  else none

/-- The main scan loop of `scanTokens`, in the source's dispatch order:
whitespace, newline, comment-or-slash, string, single-quote error,
two-character operators, single-character tokens, numbers, identifiers,
unexpected-character error.  A fuel of `src.length + 1` always suffices
(every iteration consumes at least one character). -/
def scanGo (src : List Char) :
    Nat → Nat → List Token → List SErr → Nat → List Token × List SErr × Nat
  | _, line, toks, errs, 0 => (toks, errs, line)
  | current, line, toks, errs, fuel + 1 =>
      if current ≥ src.length then (toks, errs, line)
      else
        let start := current
        let ch := charAt src current
        let cur1 := current + 1
        if ch = ' ' || ch = '\r' || ch = '\t' then
          scanGo src cur1 line toks errs fuel
        else if ch = '\n' then
          scanGo src cur1 (line + 1) toks errs fuel
        else if ch = '/' then
          if cur1 < src.length && charAt src cur1 = '/' then
            scanGo src (skipComment src (cur1 + 1)) line toks errs fuel
          else
            scanGo src cur1 line
              (toks ++ [⟨.SLASH, sliceStr src start cur1, .nil, line⟩])
              errs fuel
        else if ch = '"' then
          match scanStringStep src start cur1 line errs with
          | (cur', line', errs', none) =>
              scanGo src cur' line' toks errs' fuel
          | (cur', line', errs', some t) =>
              scanGo src cur' line' (toks ++ [t]) errs' fuel
        else if ch = '\'' then
          scanGo src cur1 line toks
            (errs ++ [⟨line, "Single quotes are not supported."⟩]) fuel
        else
          match twoCharOp ch with
          | some (withEq, withoutEq) =>
              if cur1 < src.length && charAt src cur1 = '=' then
                scanGo src (cur1 + 1) line
                  (toks ++ [⟨withEq, sliceStr src start (cur1 + 1), .nil, line⟩])
                  errs fuel
              else
                scanGo src cur1 line
                  (toks ++ [⟨withoutEq, sliceStr src start cur1, .nil, line⟩])
                  errs fuel
          | none =>
              match singleTok ch with
              | some ty =>
                  scanGo src cur1 line
                    (toks ++ [⟨ty, sliceStr src start cur1, .nil, line⟩])
                    errs fuel
              | none =>
                  if isDigitC ch then
                    let intEnd := cur1 + ((src.drop cur1).takeWhile isDigitC).length
                    let numEnd :=
                      if charAt src intEnd = '.' &&
                          isDigitC (charAt src (intEnd + 1)) then
                        intEnd + 1 +
                          ((src.drop (intEnd + 1)).takeWhile isDigitC).length
                      else intEnd
                    scanGo src numEnd line
                      (toks ++ [⟨.NUMBER, sliceStr src start numEnd,
                        .num (parseFloatModel ((src.drop start).take (numEnd - start))),
                        line⟩])
                      errs fuel
                  else if isAlphaC ch then
                    let idEnd := cur1 + ((src.drop cur1).takeWhile isAlphaNumC).length
                    let text := sliceStr src start idEnd
                    let ty := (keywordLookup text).getD .IDENTIFIER
                    scanGo src idEnd line
                      (toks ++ [⟨ty, text, .nil, line⟩]) errs fuel
                  else
                    scanGo src cur1 line toks
                      (errs ++ [⟨line,
                        "Unexpected character: '" ++ String.mk [ch] ++ "'"⟩])
                      fuel

/-- The complete scan: tokens without the final EOF, accumulated errors,
final line. -/
def scanTokensFull (s : String) : List Token × List SErr × Nat :=
  let src := s.toList
  scanGo src 0 1 [] [] (src.length + 1)

/-- `scanTokens` as its consumers observe it: if any error accumulated,
the aggregate `Syntax error` is raised (before the EOF token is ever
yielded); otherwise the token list ends with exactly one EOF token. -/
def scanTokensRun (s : String) : Except (List SErr) (List Token) :=
  match scanTokensFull s with
  | (toks, errs, line) =>
      if errs ≠ [] then .error errs
      else .ok (toks ++ [⟨.EOF, "", .nil, line⟩])

/-! ## Parser (`parser.ts`, statement-grammar snapshot)

The token stream (`token-stream.ts` `fromArray`) is a cursor over the
token list with a `last`-advanced memo; recorded (non-fatal) errors and
the fresh-id counter for variable/assignment node identity live in the
parser state.  Parse failures (`throw parseError(...)`) surface as
`PFail.perr`, paired with the state reached so that recorded errors and
consumed tokens persist across the throw, as the source's captured
arrays do. -/

inductive PFail where
  | perr (e : PError)
  | pinternal (msg : String)
  | pNoFuel
deriving DecidableEq, Repr

structure PState where
  toks : List Token
  pos : Nat
  last : Option Token
  errors : List PError
  nextId : Nat
deriving DecidableEq, Repr

abbrev PRes (α : Type) := Except PFail α × PState

/-- `peek(k)`: out of range throws a plain `Error`. -/
def peekTok (st : PState) (k : Nat := 0) : Except PFail Token :=
  match st.toks.get? (st.pos + k) with
  | some t => .ok t
  | none => .error (.pinternal
      ("Token index out of range: " ++ toString (st.pos + k)))

/-- `advance()`. -/
def advanceTok (st : PState) : Except PFail (Token × PState) :=
  match peekTok st with
  | .error f => .error f
  | .ok t => .ok (t, { st with pos := st.pos + 1, last := some t })

/-- `previous()`. -/
def previousTok (st : PState) : Except PFail Token :=
  match st.last with
  | some t => .ok t
  | none => .error (.pinternal "No previous token")

/-- `isAtEnd()`: the lookahead is the EOF token. -/
def isAtEndTok (st : PState) : Except PFail Bool :=
  match peekTok st with
  | .error f => .error f
  | .ok t => .ok (decide (t.type = .EOF))

/-- `check(type)`: `!isAtEnd() && peek().type === type`. -/
def checkTok (ty : TokType) (st : PState) : Except PFail Bool :=
  match peekTok st with
  | .error f => .error f
  | .ok t => .ok (decide (t.type ≠ .EOF ∧ t.type = ty))

/-- `match(...types)`: advance when some type checks. -/
def matchTok (types : List TokType) (st : PState) :
    Except PFail (Bool × PState) :=
  match peekTok st with
  | .error f => .error f
  | .ok t =>
      if t.type ≠ .EOF ∧ types.contains t.type then
        match advanceTok st with
        | .error f => .error f
        | .ok (_, st') => .ok (true, st')
      else .ok (false, st)

/-- `consume(type, message)`: advance on a check hit, else throw the
parse error naming the lookahead. -/
def consumeTok (ty : TokType) (msg : String) (st : PState) :
    Except PFail (Token × PState) :=
  match peekTok st with
  | .error f => .error f
  | .ok t =>
      if t.type ≠ .EOF ∧ t.type = ty then advanceTok st
      else .error (.perr (parseErrorOf t msg))

/-- Push a recorded (non-fatal) error. -/
def recordErr (st : PState) (e : PError) : PState :=
  { st with errors := st.errors ++ [e] }

/-- Allocate a fresh node id (object identity of the source's AST
nodes). -/
def freshId (st : PState) : Nat × PState :=
  (st.nextId, { st with nextId := st.nextId + 1 })

/-- The two node constructors `leftSeries` chooses between. -/
inductive OpKind where
  | binary
  | logical
deriving DecidableEq, Repr

def mkOp : OpKind → Expr → Token → Expr → Expr
  | .binary, l, o, r => .binary l o r
  | .logical, l, o, r => .logical l o r

/-- The folding loop of `leftSeries`: while one of `matchTypes` matches,
fold the freshly parsed right operand into the accumulator
left-associatively. -/
def leftSeriesGo (exprFn : PState → PRes Expr) (matchTypes : List TokType)
    (kind : OpKind) : Nat → Expr → PState → PRes Expr
  | 0, _, st => (.error .pNoFuel, st)
  | fuel + 1, acc, st =>
      match matchTok matchTypes st with
      | .error f => (.error f, st)
      | .ok (false, st') => (.ok acc, st')
      | .ok (true, st') =>
          match previousTok st' with
          | .error f => (.error f, st')
          | .ok op =>
              match exprFn st' with
              | (.error f, st'') => (.error f, st'')
              | (.ok rhs, st'') =>
                  leftSeriesGo exprFn matchTypes kind fuel
                    (mkOp kind acc op rhs) st''

/-- `leftSeries(exprFn, matchTypes, type)`. -/
def leftSeriesP (exprFn : PState → PRes Expr) (matchTypes : List TokType)
    (kind : OpKind) (fuel : Nat) (st : PState) : PRes Expr :=
  match exprFn st with
  | (.error f, st') => (.error f, st')
  | (.ok e, st') => leftSeriesGo exprFn matchTypes kind fuel e st'

mutual

/-- `expression()`. -/
def expressionP : Nat → PState → PRes Expr
  | 0, st => (.error .pNoFuel, st)
  | fuel + 1, st => functionExprP fuel st

/-- `functionExpr()`: an anonymous `fun (params) { body }` at expression
position, else fall through to assignment.  Its parameter loop has no
255-parameter check. -/
def functionExprP : Nat → PState → PRes Expr
  | 0, st => (.error .pNoFuel, st)
  | fuel + 1, st =>
      match matchTok [.FUN] st with
      | .error f => (.error f, st)
      | .ok (false, st') => assignmentP fuel st'
      | .ok (true, st') =>
          match consumeTok .LEFT_PAREN "Expect '(' after 'fun'." st' with
          | .error f => (.error f, st')
          | .ok (_, st1) =>
              match checkTok .RIGHT_PAREN st1 with
              | .error f => (.error f, st1)
              | .ok closed =>
                  match (if closed then (.ok [], st1)
                         else paramLoopE fuel [] st1 :
                          PRes (List Token)) with
                  | (.error f, st2) => (.error f, st2)
                  | (.ok params, st2) =>
                      match consumeTok .RIGHT_PAREN
                          "Expect ')' after parameters." st2 with
                      | .error f => (.error f, st2)
                      | .ok (_, st3) =>
                          match consumeTok .LEFT_BRACE
                              "Expect '\x7b' before function body." st3 with
                          | .error f => (.error f, st3)
                          | .ok (_, st4) =>
                              match blockStatementP fuel st4 with
                              | (.error f, st5) => (.error f, st5)
                              | (.ok body, st5) =>
                                  (.ok (.anonymousFunction params body), st5)

/-- The `do { parameters.push(consume(IDENTIFIER, ...)) } while
(match(COMMA))` loop of `functionExpr` — no length check. -/
def paramLoopE : Nat → List Token → PState → PRes (List Token)
  | 0, _, st => (.error .pNoFuel, st)
  | fuel + 1, acc, st =>
      match consumeTok .IDENTIFIER "Expect parameter name." st with
      | .error f => (.error f, st)
      | .ok (p, st') =>
          match matchTok [.COMMA] st' with
          | .error f => (.error f, st')
          | .ok (true, st'') => paramLoopE fuel (acc ++ [p]) st''
          | .ok (false, st'') => (.ok (acc ++ [p]), st'')

/-- `assignment()`: right-associative; a non-variable target records
`Invalid assignment target.` and the left-hand expression is returned. -/
def assignmentP : Nat → PState → PRes Expr
  | 0, st => (.error .pNoFuel, st)
  | fuel + 1, st =>
      match orP fuel st with
      | (.error f, st') => (.error f, st')
      | (.ok e, st') =>
          match matchTok [.EQUAL] st' with
          | .error f => (.error f, st')
          | .ok (false, st1) => (.ok e, st1)
          | .ok (true, st1) =>
              match previousTok st1 with
              | .error f => (.error f, st1)
              | .ok equals =>
                  match assignmentP fuel st1 with
                  | (.error f, st2) => (.error f, st2)
                  | (.ok value, st2) =>
                      match e with
                      | .varE _ name =>
                          let (id, st3) := freshId st2
                          (.ok (.assignment id name value), st3)
                      | _ =>
                          (.ok e, recordErr st2
                            (parseErrorOf equals "Invalid assignment target."))

/-- `or()`. -/
def orP : Nat → PState → PRes Expr
  | 0, st => (.error .pNoFuel, st)
  | fuel + 1, st =>
      leftSeriesP (fun s => andP fuel s) [.OR] .logical fuel st

/-- `and()`. -/
def andP : Nat → PState → PRes Expr
  | 0, st => (.error .pNoFuel, st)
  | fuel + 1, st =>
      leftSeriesP (fun s => equalityP fuel s) [.AND] .logical fuel st

/-- `equality()`. -/
def equalityP : Nat → PState → PRes Expr
  | 0, st => (.error .pNoFuel, st)
  | fuel + 1, st =>
      leftSeriesP (fun s => comparisonP fuel s) [.BANG_EQUAL, .EQUAL_EQUAL]
        .binary fuel st

/-- `comparison()`. -/
def comparisonP : Nat → PState → PRes Expr
  | 0, st => (.error .pNoFuel, st)
  | fuel + 1, st =>
      leftSeriesP (fun s => termP fuel s)
        [.GREATER, .GREATER_EQUAL, .LESS, .LESS_EQUAL] .binary fuel st

/-- `term()`. -/
def termP : Nat → PState → PRes Expr
  | 0, st => (.error .pNoFuel, st)
  | fuel + 1, st =>
      leftSeriesP (fun s => factorP fuel s) [.MINUS, .PLUS] .binary fuel st

/-- `factor()`. -/
def factorP : Nat → PState → PRes Expr
  | 0, st => (.error .pNoFuel, st)
  | fuel + 1, st =>
      leftSeriesP (fun s => unaryP fuel s) [.SLASH, .STAR, .PERCENT]
        .binary fuel st

/-- `unary()`. -/
def unaryP : Nat → PState → PRes Expr
  | 0, st => (.error .pNoFuel, st)
  | fuel + 1, st =>
      match matchTok [.BANG, .MINUS] st with
      | .error f => (.error f, st)
      | .ok (true, st') =>
          match previousTok st' with
          | .error f => (.error f, st')
          | .ok op =>
              match unaryP fuel st' with
              | (.error f, st'') => (.error f, st'')
              | (.ok rhs, st'') => (.ok (.unary op rhs), st'')
      | .ok (false, st') => callP fuel st'

/-- `call()`: a primary followed by any number of `(...)` argument
lists. -/
def callP : Nat → PState → PRes Expr
  | 0, st => (.error .pNoFuel, st)
  | fuel + 1, st =>
      match primaryP fuel st with
      | (.error f, st') => (.error f, st')
      | (.ok e, st') => callLoopP fuel e st'

def callLoopP : Nat → Expr → PState → PRes Expr
  | 0, _, st => (.error .pNoFuel, st)
  | fuel + 1, e, st =>
      match matchTok [.LEFT_PAREN] st with
      | .error f => (.error f, st)
      | .ok (false, st') => (.ok e, st')
      | .ok (true, st') =>
          match finishCallP fuel e st' with
          | (.error f, st'') => (.error f, st'')
          | (.ok e', st'') => callLoopP fuel e' st''

/-- `finishCall(callee)`: argument lists over 255 elements record a
non-fatal `Can't have more than 255 arguments.` error but still
parse. -/
def finishCallP : Nat → Expr → PState → PRes Expr
  | 0, _, st => (.error .pNoFuel, st)
  | fuel + 1, callee, st =>
      match checkTok .RIGHT_PAREN st with
      | .error f => (.error f, st)
      | .ok closed =>
          match (if closed then (.ok [], st)
                 else argLoopP fuel [] st : PRes (List Expr)) with
          | (.error f, st') => (.error f, st')
          | (.ok args, st') =>
              match consumeTok .RIGHT_PAREN "Expect ')' after arguments." st' with
              | .error f => (.error f, st')
              | .ok (paren, st'') => (.ok (.call callee paren args), st'')

def argLoopP : Nat → List Expr → PState → PRes (List Expr)
  | 0, _, st => (.error .pNoFuel, st)
  | fuel + 1, acc, st =>
      match (if acc.length ≥ 255 then
               match peekTok st with
               | .error f => .error f
               | .ok t => .ok (recordErr st
                   (parseErrorOf t "Can't have more than 255 arguments."))
             else .ok st : Except PFail PState) with
      | .error f => (.error f, st)
      | .ok st0 =>
          match expressionP fuel st0 with
          | (.error f, st') => (.error f, st')
          | (.ok e, st') =>
              match matchTok [.COMMA] st' with
              | .error f => (.error f, st')
              | .ok (true, st'') => argLoopP fuel (acc ++ [e]) st''
              | .ok (false, st'') => (.ok (acc ++ [e]), st'')

/-- `primary()`. -/
def primaryP : Nat → PState → PRes Expr
  | 0, st => (.error .pNoFuel, st)
  | fuel + 1, st =>
      match matchTok [.FALSE] st with
      | .error f => (.error f, st)
      | .ok (true, st') => (.ok (.literal (.bool false)), st')
      | .ok (false, st') =>
      match matchTok [.TRUE] st' with
      | .error f => (.error f, st')
      | .ok (true, st1) => (.ok (.literal (.bool true)), st1)
      | .ok (false, st1) =>
      match matchTok [.NIL] st1 with
      | .error f => (.error f, st1)
      | .ok (true, st2) => (.ok (.literal .nil), st2)
      | .ok (false, st2) =>
      match matchTok [.NUMBER, .STRING] st2 with
      | .error f => (.error f, st2)
      | .ok (true, st3) =>
          (match previousTok st3 with
           | .error f => (.error f, st3)
           | .ok t => (.ok (.literal t.literal), st3))
      | .ok (false, st3) =>
      match matchTok [.IDENTIFIER] st3 with
      | .error f => (.error f, st3)
      | .ok (true, st4) =>
          (match previousTok st4 with
           | .error f => (.error f, st4)
           | .ok t =>
               let (id, st5) := freshId st4
               (.ok (.varE id t), st5))
      | .ok (false, st4) =>
      match matchTok [.LEFT_PAREN] st4 with
      | .error f => (.error f, st4)
      | .ok (true, st5) =>
          (match expressionP fuel st5 with
           | (.error f, st6) => (.error f, st6)
           | (.ok e, st6) =>
               match consumeTok .RIGHT_PAREN "Expect ')' after expression." st6 with
               | .error f => (.error f, st6)
               | .ok (_, st7) => (.ok (.grouping e), st7))
      | .ok (false, st5) =>
          (match peekTok st5 with
           | .error f => (.error f, st5)
           | .ok t => (.error (.perr (parseErrorOf t "Expect expression.")), st5))

/-- `declaration()`. -/
def declarationP : Nat → PState → PRes Stmt
  | 0, st => (.error .pNoFuel, st)
  | fuel + 1, st =>
      match matchTok [.FUN] st with
      | .error f => (.error f, st)
      | .ok (true, st') => functionDeclarationP "function" fuel st'
      | .ok (false, st') =>
          match matchTok [.VAR] st' with
          | .error f => (.error f, st')
          | .ok (true, st1) => varDeclarationP fuel st1
          | .ok (false, st1) => statementP fuel st1

/-- `varDeclaration()`. -/
def varDeclarationP : Nat → PState → PRes Stmt
  | 0, st => (.error .pNoFuel, st)
  | fuel + 1, st =>
      match consumeTok .IDENTIFIER "Expect variable name." st with
      | .error f => (.error f, st)
      | .ok (name, st') =>
          match matchTok [.EQUAL] st' with
          | .error f => (.error f, st')
          | .ok (hasInit, st1) =>
              match (if hasInit then
                       match expressionP fuel st1 with
                       | (.error f, s) => (.error f, s)
                       | (.ok e, s) => (.ok (some e), s)
                     else (.ok none, st1) : PRes (Option Expr)) with
              | (.error f, st2) => (.error f, st2)
              | (.ok init, st2) =>
                  match consumeTok .SEMICOLON
                      "Expect ';' after variable declaration." st2 with
                  | .error f => (.error f, st2)
                  | .ok (_, st3) => (.ok (.varDecl name init), st3)

/-- `functionDeclaration(kind)`: named; its parameter loop records
`Can't have more than 255 parameters.` past the limit. -/
def functionDeclarationP (kind : String) : Nat → PState → PRes Stmt
  | 0, st => (.error .pNoFuel, st)
  | fuel + 1, st =>
      match consumeTok .IDENTIFIER ("Expect " ++ kind ++ " name.") st with
      | .error f => (.error f, st)
      | .ok (name, st') =>
          match consumeTok .LEFT_PAREN
              ("Expect '(' after " ++ kind ++ " name.") st' with
          | .error f => (.error f, st')
          | .ok (_, st1) =>
              match checkTok .RIGHT_PAREN st1 with
              | .error f => (.error f, st1)
              | .ok closed =>
                  match (if closed then (.ok [], st1)
                         else paramLoopD fuel [] st1 : PRes (List Token)) with
                  | (.error f, st2) => (.error f, st2)
                  | (.ok params, st2) =>
                      match consumeTok .RIGHT_PAREN
                          "Expect ')' after parameters." st2 with
                      | .error f => (.error f, st2)
                      | .ok (_, st3) =>
                          match consumeTok .LEFT_BRACE
                              ("Expect '\x7b' before " ++ kind ++ " body.") st3 with
                          | .error f => (.error f, st3)
                          | .ok (_, st4) =>
                              match blockStatementP fuel st4 with
                              | (.error f, st5) => (.error f, st5)
                              | (.ok body, st5) =>
                                  (.ok (.functionStmt name params body), st5)

/-- The named declaration's parameter loop, with the 255 check before
each push. -/
def paramLoopD : Nat → List Token → PState → PRes (List Token)
  | 0, _, st => (.error .pNoFuel, st)
  | fuel + 1, acc, st =>
      match (if acc.length ≥ 255 then
               match peekTok st with
               | .error f => .error f
               | .ok t => .ok (recordErr st
                   (parseErrorOf t "Can't have more than 255 parameters."))
             else .ok st : Except PFail PState) with
      | .error f => (.error f, st)
      | .ok st0 =>
          match consumeTok .IDENTIFIER "Expect parameter name." st0 with
          | .error f => (.error f, st0)
          | .ok (p, st') =>
              match matchTok [.COMMA] st' with
              | .error f => (.error f, st')
              | .ok (true, st'') => paramLoopD fuel (acc ++ [p]) st''
              | .ok (false, st'') => (.ok (acc ++ [p]), st'')

/-- `statement()`. -/
def statementP : Nat → PState → PRes Stmt
  | 0, st => (.error .pNoFuel, st)
  | fuel + 1, st =>
      match matchTok [.IF] st with
      | .error f => (.error f, st)
      | .ok (true, st') => ifStatementP fuel st'
      | .ok (false, st') =>
      match matchTok [.PRINT] st' with
      | .error f => (.error f, st')
      | .ok (true, st1) => printStatementP fuel st1
      | .ok (false, st1) =>
      match matchTok [.RETURN] st1 with
      | .error f => (.error f, st1)
      | .ok (true, st2) => returnStatementP fuel st2
      | .ok (false, st2) =>
      match matchTok [.WHILE] st2 with
      | .error f => (.error f, st2)
      | .ok (true, st3) => whileStatementP fuel st3
      | .ok (false, st3) =>
      match matchTok [.FOR] st3 with
      | .error f => (.error f, st3)
      | .ok (true, st4) => forStatementP fuel st4
      | .ok (false, st4) =>
      match matchTok [.BREAK] st4 with
      | .error f => (.error f, st4)
      | .ok (true, st5) => breakStatementP fuel st5
      | .ok (false, st5) =>
      match matchTok [.LEFT_BRACE] st5 with
      | .error f => (.error f, st5)
      | .ok (true, st6) =>
          (match blockStatementP fuel st6 with
           | (.error f, st7) => (.error f, st7)
           | (.ok stmts, st7) => (.ok (.block stmts), st7))
      | .ok (false, st6) => expressionStatementP fuel st6

def ifStatementP : Nat → PState → PRes Stmt
  | 0, st => (.error .pNoFuel, st)
  | fuel + 1, st =>
      match consumeTok .LEFT_PAREN "Expect '(' after 'if'." st with
      | .error f => (.error f, st)
      | .ok (_, st') =>
          match expressionP fuel st' with
          | (.error f, st1) => (.error f, st1)
          | (.ok cond, st1) =>
              match consumeTok .RIGHT_PAREN "Expect ')' after condition." st1 with
              | .error f => (.error f, st1)
              | .ok (_, st2) =>
                  match statementP fuel st2 with
                  | (.error f, st3) => (.error f, st3)
                  | (.ok thenB, st3) =>
                      match matchTok [.ELSE] st3 with
                      | .error f => (.error f, st3)
                      | .ok (true, st4) =>
                          (match statementP fuel st4 with
                           | (.error f, st5) => (.error f, st5)
                           | (.ok elseB, st5) =>
                               (.ok (.ifStmt cond thenB (some elseB)), st5))
                      | .ok (false, st4) =>
                          (.ok (.ifStmt cond thenB none), st4)

def whileStatementP : Nat → PState → PRes Stmt
  | 0, st => (.error .pNoFuel, st)
  | fuel + 1, st =>
      match consumeTok .LEFT_PAREN "Expect '(' after 'while'." st with
      | .error f => (.error f, st)
      | .ok (_, st') =>
          match expressionP fuel st' with
          | (.error f, st1) => (.error f, st1)
          | (.ok cond, st1) =>
              match consumeTok .RIGHT_PAREN "Expect ')' after condition." st1 with
              | .error f => (.error f, st1)
              | .ok (_, st2) =>
                  match statementP fuel st2 with
                  | (.error f, st3) => (.error f, st3)
                  | (.ok body, st3) => (.ok (.whileStmt cond body), st3)

/-- `forStatement()`: desugars to initializer/while/increment blocks,
condition defaulting to `true`. -/
def forStatementP : Nat → PState → PRes Stmt
  | 0, st => (.error .pNoFuel, st)
  | fuel + 1, st =>
      match consumeTok .LEFT_PAREN "Expect '(' after 'for'." st with
      | .error f => (.error f, st)
      | .ok (_, st') =>
      match matchTok [.SEMICOLON] st' with
      | .error f => (.error f, st')
      | .ok (noInit, st1) =>
      match (if noInit then (.ok none, st1)
             else
               match matchTok [.VAR] st1 with
               | .error f => (.error f, st1)
               | .ok (true, s) =>
                   (match varDeclarationP fuel s with
                    | (.error f, s') => (.error f, s')
                    | (.ok d, s') => (.ok (some d), s'))
               | .ok (false, s) =>
                   (match expressionStatementP fuel s with
                    | (.error f, s') => (.error f, s')
                    | (.ok d, s') => (.ok (some d), s')) : PRes (Option Stmt)) with
      | (.error f, st2) => (.error f, st2)
      | (.ok init, st2) =>
      match checkTok .SEMICOLON st2 with
      | .error f => (.error f, st2)
      | .ok noCond =>
      match (if noCond then (.ok none, st2)
             else
               match expressionP fuel st2 with
               | (.error f, s) => (.error f, s)
               | (.ok e, s) => (.ok (some e), s) : PRes (Option Expr)) with
      | (.error f, st3) => (.error f, st3)
      | (.ok cond, st3) =>
      match consumeTok .SEMICOLON "Expect ';' after loop condition." st3 with
      | .error f => (.error f, st3)
      | .ok (_, st4) =>
      match checkTok .RIGHT_PAREN st4 with
      | .error f => (.error f, st4)
      | .ok noInc =>
      match (if noInc then (.ok none, st4)
             else
               match expressionP fuel st4 with
               | (.error f, s) => (.error f, s)
               | (.ok e, s) => (.ok (some e), s) : PRes (Option Expr)) with
      | (.error f, st5) => (.error f, st5)
      | (.ok inc, st5) =>
      match consumeTok .RIGHT_PAREN "Expect ')' after for clauses." st5 with
      | .error f => (.error f, st5)
      | .ok (_, st6) =>
      match statementP fuel st6 with
      | (.error f, st7) => (.error f, st7)
      | (.ok body0, st7) =>
          let body1 :=
            match inc with
            | some e => Stmt.block [body0, .exprStmt e]
            | none => body0
          let body2 := Stmt.whileStmt (cond.getD (.literal (.bool true))) body1
          let body3 :=
            match init with
            | some d => Stmt.block [d, body2]
            | none => body2
          (.ok body3, st7)

def returnStatementP : Nat → PState → PRes Stmt
  | 0, st => (.error .pNoFuel, st)
  | fuel + 1, st =>
      match previousTok st with
      | .error f => (.error f, st)
      | .ok keyword =>
          match matchTok [.SEMICOLON] st with
          | .error f => (.error f, st)
          | .ok (true, st') => (.ok (.returnStmt keyword none), st')
          | .ok (false, st') =>
              match expressionP fuel st' with
              | (.error f, st1) => (.error f, st1)
              | (.ok v, st1) =>
                  match consumeTok .SEMICOLON "Expect ';' after return." st1 with
                  | .error f => (.error f, st1)
                  | .ok (_, st2) => (.ok (.returnStmt keyword (some v)), st2)

/-- `breakStatement()`: note the source builds the node from
`previous()` *after* consuming the semicolon, so the recorded operator
token is the semicolon. -/
def breakStatementP : Nat → PState → PRes Stmt
  | 0, st => (.error .pNoFuel, st)
  | _ + 1, st =>
      match consumeTok .SEMICOLON "Expect ';' after break." st with
      | .error f => (.error f, st)
      | .ok (_, st') =>
          match previousTok st' with
          | .error f => (.error f, st')
          | .ok op => (.ok (.breakStmt op), st')

/-- `blockStatement()`: declarations until `}` or end of input, then the
closing brace. -/
def blockStatementP : Nat → PState → PRes (List Stmt)
  | 0, st => (.error .pNoFuel, st)
  | fuel + 1, st =>
      match blockLoopP fuel [] st with
      | (.error f, st') => (.error f, st')
      | (.ok stmts, st') =>
          match consumeTok .RIGHT_BRACE "Expect '\x7d' after block." st' with
          | .error f => (.error f, st')
          | .ok (_, st'') => (.ok stmts, st'')

def blockLoopP : Nat → List Stmt → PState → PRes (List Stmt)
  | 0, _, st => (.error .pNoFuel, st)
  | fuel + 1, acc, st =>
      match checkTok .RIGHT_BRACE st with
      | .error f => (.error f, st)
      | .ok closed =>
          match isAtEndTok st with
          | .error f => (.error f, st)
          | .ok atEnd =>
              if !closed && !atEnd then
                match declarationP fuel st with
                | (.error f, st') => (.error f, st')
                | (.ok s, st') => blockLoopP fuel (acc ++ [s]) st'
              else (.ok acc, st)

def printStatementP : Nat → PState → PRes Stmt
  | 0, st => (.error .pNoFuel, st)
  | fuel + 1, st =>
      match expressionP fuel st with
      | (.error f, st') => (.error f, st')
      | (.ok e, st') =>
          match consumeTok .SEMICOLON "Expect ';' after value." st' with
          | .error f => (.error f, st')
          | .ok (_, st'') => (.ok (.printStmt e), st'')

def expressionStatementP : Nat → PState → PRes Stmt
  | 0, st => (.error .pNoFuel, st)
  | fuel + 1, st =>
      match expressionP fuel st with
      | (.error f, st') => (.error f, st')
      | (.ok e, st') =>
          match consumeTok .SEMICOLON "Expect ';' after expression." st' with
          | .error f => (.error f, st')
          | .ok (_, st'') => (.ok (.exprStmt e), st'')

end

/-- Statement boundaries `synchronize` stops before. -/
def syncBoundary (ty : TokType) : Bool :=
  match ty with
  | .CLASS | .FUN | .VAR | .FOR | .IF | .WHILE | .PRINT | .RETURN => true
  | _ => false

def syncLoopP : Nat → PState → Except PFail PState
  | 0, st => .ok st
  | fuel + 1, st =>
      match isAtEndTok st with
      | .error f => .error f
      | .ok true => .ok st
      | .ok false =>
          match previousTok st with
          | .error f => .error f
          | .ok prev =>
              if prev.type = .SEMICOLON then .ok st
              else
                match peekTok st with
                | .error f => .error f
                | .ok t =>
                    if syncBoundary t.type then .ok st
                    else
                      match advanceTok st with
                      | .error f => .error f
                      | .ok (_, st') => syncLoopP fuel st'

/-- `synchronize()`: discard tokens to a likely statement boundary. -/
def synchronizeP (fuel : Nat) (st : PState) : Except PFail PState :=
  match isAtEndTok st with
  | .error f => .error f
  | .ok true => syncLoopP fuel st
  | .ok false =>
      match advanceTok st with
      | .error f => .error f
      | .ok (_, st') => syncLoopP fuel st'

/-- The top-level parse loop: each failed declaration records its error
and synchronizes, so one pass reports several independent errors. -/
def parseProgramGo : Nat → List Stmt → PState → PRes (List Stmt)
  | 0, _, st => (.error .pNoFuel, st)
  | fuel + 1, acc, st =>
      match isAtEndTok st with
      | .error f => (.error f, st)
      | .ok true => (.ok acc, st)
      | .ok false =>
          match declarationP fuel st with
          | (.ok s, st') => parseProgramGo fuel (acc ++ [s]) st'
          | (.error (.perr e), st') =>
              (match synchronizeP fuel (recordErr st' e) with
               | .error f => (.error f, st')
               | .ok st'' => parseProgramGo fuel acc st'')
          | (.error f, st') => (.error f, st')

def initPState (tokens : List Token) : PState :=
  { toks := tokens, pos := 0, last := none, errors := [], nextId := 0 }

/-- `parseAst(tokens)` (array form): the statement list, or the bundle
of recorded errors raised as the aggregate `Syntax error` when any
exist; `PFail` covers the embedding's internal/fuel outcomes. -/
def parseAstRun (tokens : List Token) (fuel : Nat) :
    Except (PFail ⊕ List PError) (List Stmt) × PState :=
  match parseProgramGo fuel [] (initPState tokens) with
  | (.ok stmts, st) =>
      if st.errors ≠ [] then (.error (.inr st.errors), st)
      else (.ok stmts, st)
  | (.error f, st) => (.error (.inl f), st)

/-! ## Concrete fixtures used by the claim theorems -/

def idTok (s : String) : Token := ⟨.IDENTIFIER, s, .nil, 1⟩
def plusTok : Token := ⟨.PLUS, "+", .nil, 1⟩
def slashTok : Token := ⟨.SLASH, "/", .nil, 1⟩
def percentTok : Token := ⟨.PERCENT, "%", .nil, 1⟩
def orTok : Token := ⟨.OR, "or", .nil, 1⟩
def andTok : Token := ⟨.AND, "and", .nil, 1⟩
def eqeqTok : Token := ⟨.EQUAL_EQUAL, "==", .nil, 1⟩
def bangeqTok : Token := ⟨.BANG_EQUAL, "!=", .nil, 1⟩
def semiTok : Token := ⟨.SEMICOLON, ";", .nil, 1⟩
def returnTok : Token := ⟨.RETURN, "return", .nil, 1⟩
def numLit (n : Rat) : Expr := .literal (.num n)

/-- Program `{ var a; var a; }`: one block declaring `a` twice. -/
def dupDeclProg : List Stmt :=
  [.block [.varDecl (idTok "a") none, .varDecl (idTok "a") none]]

/-- Program `while (true) { return; }` (a return inside a top-level loop
body; the body is the bare return statement). -/
def topLoopReturnProg : List Stmt :=
  [.whileStmt (.literal (.bool true)) (.returnStmt returnTok none)]

/-- Program `return;` at top level. -/
def topReturnProg : List Stmt := [.returnStmt returnTok none]

/-- An empty evaluation context and state (no environment is touched by
the expressions they are used with). -/
def ctx0 : Ctx := ⟨0, []⟩
def st0 : EState := ⟨[], []⟩

/-! ## Claim theorems -/

/-- C1.  Re-declaring a name in one non-global scope *does* push the
`already declared in this scope` error — but onto the `errors` array
closed over by `createResolver`, while the resolver object returned
carries a *fresh* `errors: []` array, which is the one the visitors push
to and the only one `resolve` checks at the end.  On `{ var a; var a; }`
the redeclaration error is therefore recorded into a dead list
(`declErrors`), the live list stays empty, and `resolve` returns
normally instead of raising the aggregate resolve error the claim (and
spec) require. -/
theorem dup_declaration_error_recorded_but_never_raised :
    (resolveFull dupDeclProg).declErrors =
      [⟨1, " at 'a'",
        "Variable with name 'a' already declared in this scope."⟩] ∧
    (resolveFull dupDeclProg).errs = [] ∧
    resolveProgram dupDeclProg = .ok [] := by
  refine ⟨?_, ?_, ?_⟩ <;>
    simp [resolveFull, dupDeclProg, resolveStmtList, resolveStmt,
      scopeDeclare, scopeDefine, scopePush, scopePop, initRState,
      assocHasB, assocSetB, assocGetB, parseErrorOf, idTok, resolveProgram]

/-- C8.  The four-character source `"\\"` — a string literal whose
payload is one escaped backslash — is scanned as *unterminated*: the
termination loop treats any quote preceded by a backslash character as
escaped, even when that backslash is itself the second character of a
`\\` escape, so the closing quote is swallowed and the scan runs off the
end of the input.  Yet the scanner's own escape decoder
(`processEscapeSequences`) decodes that very payload `\\` to a single
backslash with no error, so by the scanner's own escape grammar the
quote was a real terminator.  The claim's `terminated at the first
unescaped closing quote` is the spec's evident intent and the
termination test a slip. -/
theorem escaped_backslash_string_scans_as_unterminated :
    scanTokensFull "\"\\\\\"" = ([], [⟨1, "Unterminated string."⟩], 1) ∧
    scanTokensRun "\"\\\\\"" = .error [⟨1, "Unterminated string."⟩] ∧
    processEscape ['\\', '\\'] 1 [] = ("\\", []) :=
  ⟨rfl, rfl, rfl⟩

/-- C2 counterexample.  `"a" + true` has a string operand on the left,
so the claim requires the concatenation `"atrue"`; the code instead
requires *both* operands to be strings or numbers
(`types.every(type === "string" || type === "number")`) and raises the
`must be numbers or strings` runtime error, because `typeof true` is
`"boolean"`. -/
theorem plus_string_bool_errors :
    visitBinaryOp plusTok (.str "a") (.bool true) =
      .error (.runtime 1 "Operands of + must be numbers or strings") :=
  rfl

/-- C2 (amended).  For `+`: two numbers add numerically; when both
operands are strings-or-numbers and at least one is a string, the result
is the concatenation of their string conversions; otherwise — including
when one operand is a string but the other is a boolean, nil or a
callable — the `must be numbers or strings` runtime error is raised. -/
theorem plus_dispatch (op : Token) (l r : Value) (hop : op.type = .PLUS) :
    (∀ a b, l = .num a → r = .num b →
        visitBinaryOp op l r = .ok (.num (a + b))) ∧
    (isStrOrNumV l = true → isStrOrNumV r = true →
        (isNumberV l = false ∨ isNumberV r = false) →
        visitBinaryOp op l r =
          .ok (.str (jsTemplateStr l ++ jsTemplateStr r))) ∧
    ((isStrOrNumV l = false ∨ isStrOrNumV r = false) →
        visitBinaryOp op l r =
          .error (.runtime op.line
            ("Operands of " ++ op.lexeme ++ " must be numbers or strings"))) := by
  refine ⟨?_, ?_, ?_⟩
  · intro a b hl hr
    subst hl; subst hr
    simp [visitBinaryOp, hop]
  · intro hl hr hnum
    cases l <;> cases r <;>
      simp_all [visitBinaryOp, hop, isStrOrNumV, isNumberV]
  · intro h
    cases l <;> cases r <;>
      simp_all [visitBinaryOp, hop, isStrOrNumV]

/-- C2 witness: the amended dispatch at concrete inputs. -/
theorem plus_dispatch_witness :
    visitBinaryOp plusTok (.num 1) (.num 2) = .ok (.num (1 + 2)) ∧
    visitBinaryOp plusTok (.str "a") (.num 1) =
      .ok (.str (jsTemplateStr (.str "a") ++ jsTemplateStr (.num 1))) ∧
    visitBinaryOp plusTok (.num 1) (.nil) =
      .error (.runtime 1 "Operands of + must be numbers or strings") :=
  ⟨(plus_dispatch plusTok (.num 1) (.num 2) rfl).1 1 2 rfl rfl,
   (plus_dispatch plusTok (.str "a") (.num 1) rfl).2.1 rfl rfl (Or.inl rfl),
   (plus_dispatch plusTok (.num 1) (.nil) rfl).2.2 (Or.inr rfl)⟩

/-- C7.  For `/` and `%`: two numeric operands with a zero divisor raise
the `Division by zero` runtime error (no quotient — and in particular no
Infinity/NaN-like value — is produced, since division only happens on
the nonzero branch); a non-numeric operand raises the
`must be a number` runtime error before any division. -/
theorem div_mod_zero_and_type_errors (op : Token) (l r : Value)
    (hop : op.type = .SLASH ∨ op.type = .PERCENT) :
    (∀ a, l = .num a → r = .num 0 →
        visitBinaryOp op l r = .error (.runtime op.line "Division by zero")) ∧
    (isNumberV l = false →
        visitBinaryOp op l r =
          .error (.runtime op.line
            ("Operand of " ++ op.lexeme ++ " must be a number"))) ∧
    (∀ a, l = .num a → isNumberV r = false →
        visitBinaryOp op l r =
          .error (.runtime op.line
            ("Operand of " ++ op.lexeme ++ " must be a number"))) := by
  refine ⟨?_, ?_, ?_⟩
  · intro a hl hr
    subst hl; subst hr
    rcases hop with hop | hop <;> simp [visitBinaryOp, hop, ensureNumber]
  · intro h
    rcases hop with hop | hop <;>
      cases l <;> simp_all [visitBinaryOp, hop, ensureNumber, isNumberV]
  · intro a hl h
    subst hl
    rcases hop with hop | hop <;>
      cases r <;> simp_all [visitBinaryOp, hop, ensureNumber, isNumberV]

/-- C7 witness: `1 / 0`, `1 % 0`, `"x" / 1` and `1 / nil` at concrete
inputs. -/
theorem div_mod_zero_witness :
    visitBinaryOp slashTok (.num 1) (.num 0) =
      .error (.runtime 1 "Division by zero") ∧
    visitBinaryOp percentTok (.num 1) (.num 0) =
      .error (.runtime 1 "Division by zero") ∧
    visitBinaryOp slashTok (.str "x") (.num 1) =
      .error (.runtime 1 "Operand of / must be a number") ∧
    visitBinaryOp slashTok (.num 1) .nil =
      .error (.runtime 1 "Operand of / must be a number") :=
  ⟨(div_mod_zero_and_type_errors slashTok (.num 1) (.num 0) (Or.inl rfl)).1
      1 rfl rfl,
   (div_mod_zero_and_type_errors percentTok (.num 1) (.num 0) (Or.inr rfl)).1
      1 rfl rfl,
   (div_mod_zero_and_type_errors slashTok (.str "x") (.num 1) (Or.inl rfl)).2.1
      rfl,
   (div_mod_zero_and_type_errors slashTok (.num 1) .nil (Or.inl rfl)).2.2
      1 rfl rfl⟩

/-! ## Helper lemmas: which operations can raise a break signal -/

theorem ancestor_error_internal (st : Store) (ref : Nat) (d : Option Nat)
    (e : LoxErr) (h : ancestor st ref d = .error e) :
    ∃ msg, e = .internal msg := by
  rcases d with _ | dist <;> simp only [ancestor] at h
  · simp at h
  · rcases hw : ancestorWalk st (enclosingOf st ref) (dist - 1) with _ | r
    · rw [hw] at h
      simp at h
      exact ⟨_, h.symm⟩
    · rw [hw] at h
      simp at h

theorem envTargetRef_error_internal (st : Store) (ref : Nat)
    (d : Option Nat) (e : LoxErr) (h : envTargetRef st ref d = .error e) :
    ∃ msg, e = .internal msg := by
  unfold envTargetRef at h
  split at h
  · simp at h
  · rcases ha : ancestor st ref d with e' | o
    case ok =>
      rw [ha] at h
      rcases o with _ | r <;> simp at h
    case error =>
      rw [ha] at h
      simp at h
      obtain ⟨msg, hm⟩ := ancestor_error_internal st ref d e' ha
      rw [h] at hm
      exact ⟨msg, hm⟩

theorem envGet_not_break (st : Store) (ref : Nat) (name : Token)
    (d : Option Nat) (l : Nat) (m : String) :
    envGet st ref name d ≠ .error (.breakSig l m) := by
  intro h
  unfold envGet at h
  rcases ht : envTargetRef st ref d with e | r
  case ok =>
    rw [ht] at h
    dsimp only at h
    rcases hg : assocGet (valuesOf st r) name.lexeme with _ | v <;>
      rw [hg] at h <;> simp at h
  case error =>
    rw [ht] at h
    simp at h
    obtain ⟨msg, hmsg⟩ := envTargetRef_error_internal st ref d e ht
    rw [hmsg] at h
    exact absurd h (by simp)

theorem envAssign_not_break (st : Store) (ref : Nat) (name : Token)
    (v : Value) (d : Option Nat) (l : Nat) (m : String) :
    envAssign st ref name v d ≠ .error (.breakSig l m) := by
  intro h
  unfold envAssign at h
  rcases ht : envTargetRef st ref d with e | r
  case ok =>
    rw [ht] at h
    dsimp only at h
    by_cases hh : assocHas (valuesOf st r) name.lexeme = true <;>
      simp [hh] at h
  case error =>
    rw [ht] at h
    simp at h
    obtain ⟨msg, hmsg⟩ := envTargetRef_error_internal st ref d e ht
    rw [hmsg] at h
    exact absurd h (by simp)

theorem ensureNumber_not_break (v : Value) (op : Token) (l : Nat) (m : String) :
    ensureNumber v op ≠ .error (.breakSig l m) := by
  intro h
  unfold ensureNumber at h
  split at h <;> simp_all

theorem visitUnaryOp_not_break (op : Token) (v : Value) (l : Nat) (m : String) :
    visitUnaryOp op v ≠ .error (.breakSig l m) := by
  intro h
  unfold visitUnaryOp at h
  split at h
  · split at h
    · simp_all
    · rename_i e heq
      simp only [Except.error.injEq] at h
      exact ensureNumber_not_break _ op l m (h ▸ heq)
  · simp_all
  · simp_all

theorem visitBinaryOp_not_break (op : Token) (a b : Value) (l : Nat)
    (m : String) : visitBinaryOp op a b ≠ .error (.breakSig l m) := by
  intro h
  unfold visitBinaryOp at h
  repeat' split at h
  all_goals first
    | (simp_all
       done)
    | (simp_all
       exact absurd (by assumption :
          ensureNumber a op = .error (.breakSig l m))
          (ensureNumber_not_break a op l m))
    | (simp_all
       exact absurd (by assumption :
          ensureNumber b op = .error (.breakSig l m))
          (ensureNumber_not_break b op l m))

/-- Expressions that contain no call expression anywhere (an anonymous
function literal evaluates to a closure without running its body, so its
body does not count). -/
def callFree : Expr → Bool
  | .literal _ => true
  | .grouping e => callFree e
  | .unary _ r => callFree r
  | .binary a _ b => callFree a && callFree b
  | .logical a _ b => callFree a && callFree b
  | .varE _ _ => true
  | .assignment _ _ v => callFree v
  | .call _ _ _ => false
  | .anonymousFunction _ _ => true

/-- Only a `break` statement raises the break signal, and expression
evaluation reaches one only through a function call; a call-free
expression therefore never evaluates to a break signal. -/
theorem evalExpr_callFree_not_break :
    ∀ (fuel : Nat) (e : Expr) (ctx : Ctx) (st : EState) (l : Nat) (m : String)
      (st' : EState), callFree e = true →
      evalExpr fuel e ctx st ≠ (.error (.breakSig l m), st') := by
  intro fuel
  induction fuel with
  | zero =>
      intro e ctx st l m st' _ h
      simp [evalExpr] at h
  | succ f ih =>
      intro e ctx st l m st' hcf h
      cases e with
      | literal p => simp [evalExpr] at h
      | grouping inner =>
          exact ih inner ctx st l m st' (by simpa [callFree] using hcf) h
      | unary op right =>
          simp only [evalExpr] at h
          rcases hsub : evalExpr f right ctx st with ⟨res, stx⟩
          rw [hsub] at h
          cases res with
          | error e' =>
              simp at h
              exact ih right ctx st l m st'
                (by simpa [callFree] using hcf) (by rw [hsub, h.1, h.2])
          | ok v =>
              simp at h
              exact visitUnaryOp_not_break op v l m h.1
      | binary left op right =>
          simp only [evalExpr] at h
          rcases hl : evalExpr f left ctx st with ⟨res, stx⟩
          rw [hl] at h
          simp only [callFree, Bool.and_eq_true] at hcf
          cases res with
          | error e' =>
              simp at h
              exact ih left ctx st l m st' hcf.1 (by rw [hl, h.1, h.2])
          | ok v =>
              dsimp only at h
              rcases hr : evalExpr f right ctx stx with ⟨res2, sty⟩
              rw [hr] at h
              cases res2 with
              | error e' =>
                  simp at h
                  exact ih right ctx stx l m st' hcf.2 (by rw [hr, h.1, h.2])
              | ok w =>
                  simp at h
                  exact visitBinaryOp_not_break op v w l m h.1
      | logical left op right =>
          simp only [evalExpr] at h
          rcases hl : evalExpr f left ctx st with ⟨res, stx⟩
          rw [hl] at h
          simp only [callFree, Bool.and_eq_true] at hcf
          cases res with
          | error e' =>
              simp at h
              exact ih left ctx st l m st' hcf.1 (by rw [hl, h.1, h.2])
          | ok v =>
              dsimp only at h
              by_cases ho : op.type = .OR <;>
                by_cases ht : isTruthy v = true <;>
                simp [ho, ht] at h <;>
                exact ih right ctx stx l m st' hcf.2 (by rw [h])
      | varE id name =>
          simp only [evalExpr] at h
          have := envGet_not_break st.store ctx.envRef name
            (localsGet ctx.locals id) l m
          simp at h
          exact this h.1
      | assignment id name value =>
          simp only [evalExpr] at h
          rcases hv : evalExpr f value ctx st with ⟨res, stx⟩
          rw [hv] at h
          cases res with
          | error e' =>
              simp at h
              exact ih value ctx st l m st'
                (by simpa [callFree] using hcf) (by rw [hv, h.1, h.2])
          | ok v =>
              dsimp only at h
              rcases ha : envAssign stx.store ctx.envRef name v
                  (localsGet ctx.locals id) with e' | store'
              case error =>
                  rw [ha] at h
                  simp at h
                  exact envAssign_not_break stx.store ctx.envRef name v
                    (localsGet ctx.locals id) l m (by rw [ha, h.1])
              case ok =>
                  rw [ha] at h
                  simp at h
      | call callee paren args => simp [callFree] at hcf
      | anonymousFunction ps body => simp [evalExpr] at h

/-- Any break signal a while statement propagates must come from its
condition; with a call-free condition the statement's outcome is never
the break signal. -/
theorem while_not_break :
    ∀ (fuel : Nat) (cond : Expr) (body : Stmt) (ctx : Ctx) (st : EState)
      (l : Nat) (m : String) (st' : EState), callFree cond = true →
      execStmt fuel (.whileStmt cond body) ctx st ≠
        (.error (.breakSig l m), st') := by
  intro fuel
  induction fuel with
  | zero =>
      intro cond body ctx st l m st' _ h
      simp [execStmt] at h
  | succ f ih =>
      intro cond body ctx st l m st' hcf h
      simp only [execStmt] at h
      rcases hc : evalExpr f cond ctx st with ⟨cres, st₁⟩
      rw [hc] at h
      cases cres with
      | error e =>
          simp at h
          exact evalExpr_callFree_not_break f cond ctx st l m st' hcf
            (by rw [hc, h.1, h.2])
      | ok v =>
          dsimp only at h
          by_cases ht : isTruthy v = true
          case neg =>
              simp [ht] at h
          case pos =>
              rw [if_pos ht] at h
              rcases hb : execStmt f body ctx st₁ with ⟨bres, st₂⟩
              rw [hb] at h
              cases bres with
              | error e => cases e <;> simp at h
              | ok u => exact ih cond body ctx st₂ l m st' hcf h

/-- C5.  At a while loop's boundary: a break signal raised by the body
is caught there — the loop returns normally with the state the body
reached; any other error the body raises propagates out unchanged; and
(for a call-free condition, the only way an expression could smuggle a
break signal in) the loop's own outcome is never a break signal, so a
body break exits exactly the nearest enclosing loop and no further. -/
theorem while_break_caught_at_boundary (fuel : Nat) (cond : Expr)
    (body : Stmt) (ctx : Ctx) (st : EState) :
    (∀ v st₁ st₂ line msg,
        evalExpr fuel cond ctx st = (.ok v, st₁) → isTruthy v = true →
        execStmt fuel body ctx st₁ = (.error (.breakSig line msg), st₂) →
        execStmt (fuel + 1) (.whileStmt cond body) ctx st = (.ok none, st₂)) ∧
    (∀ v st₁ st₂ e,
        evalExpr fuel cond ctx st = (.ok v, st₁) → isTruthy v = true →
        execStmt fuel body ctx st₁ = (.error e, st₂) →
        (∀ line msg, e ≠ .breakSig line msg) →
        execStmt (fuel + 1) (.whileStmt cond body) ctx st = (.error e, st₂)) ∧
    (callFree cond = true →
        ∀ st' line msg,
          execStmt fuel (.whileStmt cond body) ctx st ≠
            (.error (.breakSig line msg), st')) := by
  refine ⟨?_, ?_, ?_⟩
  · intro v st₁ st₂ line msg hc hv hb
    simp only [execStmt]
    rw [hc]
    dsimp only
    rw [if_pos hv, hb]
  · intro v st₁ st₂ e hc hv hb hne
    simp only [execStmt]
    rw [hc]
    dsimp only
    rw [if_pos hv, hb]
    cases e with
    | breakSig line msg => exact absurd rfl (hne line msg)
    | runtime _ _ => rfl
    | retSig _ => rfl
    | internal _ => rfl
    | noFuel => rfl
  · intro hcf st' line msg
    exact while_not_break fuel cond body ctx st line msg st' hcf

/-- C5 witness: `while (true) break;` — the body's break signal is
caught at the loop and the loop finishes normally. -/
theorem while_break_caught_witness :
    execStmt 2 (.whileStmt (.literal (.bool true)) (.breakStmt semiTok))
      ctx0 st0 = (.ok none, st0) :=
  (while_break_caught_at_boundary 1 (.literal (.bool true))
      (.breakStmt semiTok) ctx0 st0).1 (.bool true) st0 st0 1
      "Break outside of loop." rfl rfl rfl

/-- C6.  Logical operators return operand values and short-circuit: `or`
with a truthy left operand returns that operand, leaving the state
exactly as the left evaluation left it (the right operand is not
evaluated, so its side effects do not occur), and otherwise the whole
expression is precisely the evaluation of the right operand; dually
`and` returns a falsy left operand and otherwise evaluates the right. -/
theorem logical_short_circuit_values (fuel : Nat) (l r : Expr) (op : Token)
    (ctx : Ctx) (st st₁ : EState) (v : Value)
    (hl : evalExpr fuel l ctx st = (.ok v, st₁)) :
    (op.type = .OR → isTruthy v = true →
        evalExpr (fuel + 1) (.logical l op r) ctx st = (.ok v, st₁)) ∧
    (op.type = .OR → isTruthy v = false →
        evalExpr (fuel + 1) (.logical l op r) ctx st =
          evalExpr fuel r ctx st₁) ∧
    (op.type = .AND → isTruthy v = false →
        evalExpr (fuel + 1) (.logical l op r) ctx st = (.ok v, st₁)) ∧
    (op.type = .AND → isTruthy v = true →
        evalExpr (fuel + 1) (.logical l op r) ctx st =
          evalExpr fuel r ctx st₁) := by
  refine ⟨?_, ?_, ?_, ?_⟩ <;>
    (intro hop hv
     simp only [evalExpr]
     rw [hl]
     simp [hop, hv])

/-- C6 witness: `"hi" or (x = 2)` yields `"hi"` with no state change
(the assignment on the right would fail on the empty environment were it
evaluated); `nil and (x = 2)` likewise; `nil or "yes"` and
`"hi" and 2` are exactly the evaluations of their right operands. -/
theorem logical_short_circuit_witness :
    evalExpr 2 (.logical (.literal (.str "hi")) orTok
        (.assignment 0 (idTok "x") (numLit 2))) ctx0 st0 =
      (.ok (.str "hi"), st0) ∧
    evalExpr 2 (.logical (.literal .nil) andTok
        (.assignment 0 (idTok "x") (numLit 2))) ctx0 st0 =
      (.ok .nil, st0) ∧
    evalExpr 2 (.logical (.literal .nil) orTok (.literal (.str "yes")))
        ctx0 st0 =
      evalExpr 1 (.literal (.str "yes")) ctx0 st0 ∧
    evalExpr 2 (.logical (.literal (.str "hi")) andTok (numLit 2)) ctx0 st0 =
      evalExpr 1 (numLit 2) ctx0 st0 :=
  ⟨(logical_short_circuit_values 1 (.literal (.str "hi")) _ orTok ctx0 st0 st0
      (.str "hi") rfl).1 rfl rfl,
   (logical_short_circuit_values 1 (.literal .nil) _ andTok ctx0 st0 st0
      .nil rfl).2.2.1 rfl rfl,
   (logical_short_circuit_values 1 (.literal .nil) _ orTok ctx0 st0 st0
      .nil rfl).2.1 rfl rfl,
   (logical_short_circuit_values 1 (.literal (.str "hi")) _ andTok ctx0 st0 st0
      (.str "hi") rfl).2.2.2 rfl rfl⟩

/-! ## C4: environment distance navigation -/

/-- Reference specification of walking *exactly* `d` enclosing links
from a frame (0 = the frame itself). -/
def frameAt : Store → Nat → Nat → Option Nat
  | _, ref, 0 => some ref
  | st, ref, d + 1 =>
      match enclosingOf st ref with
      | some r => frameAt st r d
      | none => none

theorem ancestorWalk_noneStart (st : Store) :
    ∀ d, ancestorWalk st none d = none := by
  intro d
  induction d with
  | zero => rfl
  | succ d ih => simpa [ancestorWalk] using ih

theorem ancestorWalk_eq_frameAt (st : Store) :
    ∀ (d : Nat) (r : Nat), ancestorWalk st (some r) d = frameAt st r d := by
  intro d
  induction d with
  | zero => intro r; rfl
  | succ d ih =>
      intro r
      show ancestorWalk st ((some r).bind (enclosingOf st ·)) d =
        frameAt st r (d + 1)
      rcases henc : enclosingOf st r with _ | r'
      · simp [henc, ancestorWalk_noneStart, frameAt]
      · simp [henc, frameAt]
        exact ih r'

theorem envTargetRef_of_frameAt (st : Store) (ref : Nat) (d r : Nat)
    (h : frameAt st ref d = some r) :
    envTargetRef st ref (some d) = .ok r := by
  cases d with
  | zero =>
      simp [frameAt] at h
      simp [envTargetRef, h]
  | succ d =>
      have hw : ancestorWalk st (enclosingOf st ref) d = some r := by
        rcases henc : enclosingOf st ref with _ | r₀
        · rw [frameAt, henc] at h
          simp at h
        · rw [frameAt, henc] at h
          rw [ancestorWalk_eq_frameAt]
          exact h
      simp [envTargetRef, ancestor, hw]

/-- C4.  `get`/`assign` with an explicit distance `d` reaching a frame
`r` after exactly `d` enclosing links read or write *only* frame `r`'s
table — a miss there raises `Undefined variable '<name>'.` regardless of
what other frames hold; with no distance, the lookup goes directly to
the frame designated `global` (the frame itself when it is the root),
with the same miss behaviour. -/
theorem env_distance_navigation (st : Store) (ref : Nat) (name : Token) :
    (∀ d r, frameAt st ref d = some r →
      envGet st ref name (some d) =
        (match assocGet (valuesOf st r) name.lexeme with
         | some v => .ok v
         | none => .error (.runtime name.line
             ("Undefined variable '" ++ name.lexeme ++ "'."))) ∧
      ∀ v, envAssign st ref name v (some d) =
        (if assocHas (valuesOf st r) name.lexeme then
           .ok (storeSetValues st r (assocSet (valuesOf st r) name.lexeme v))
         else .error (.runtime name.line
             ("Undefined variable '" ++ name.lexeme ++ "'.")))) ∧
    (∀ g, globalOf st ref = some g →
      envGet st ref name none =
        (match assocGet (valuesOf st g) name.lexeme with
         | some v => .ok v
         | none => .error (.runtime name.line
             ("Undefined variable '" ++ name.lexeme ++ "'.")))) ∧
    (globalOf st ref = none →
      envGet st ref name none =
        (match assocGet (valuesOf st ref) name.lexeme with
         | some v => .ok v
         | none => .error (.runtime name.line
             ("Undefined variable '" ++ name.lexeme ++ "'.")))) := by
  refine ⟨?_, ?_, ?_⟩
  · intro d r h
    have ht := envTargetRef_of_frameAt st ref d r h
    exact ⟨by rw [envGet, ht], fun v => by rw [envAssign, ht]⟩
  · intro g hg
    have ht : envTargetRef st ref none = .ok g := by
      simp [envTargetRef, ancestor, hg]
    rw [envGet, ht]
  · intro hg
    have ht : envTargetRef st ref none = .ok ref := by
      simp [envTargetRef, ancestor, hg]
    rw [envGet, ht]

/-- Three-frame chain used by the C4 witness: root frame with `a`,
middle and innermost frames both with `b`. -/
def chainStore : Store :=
  [⟨[("a", .num 1)], none, none⟩,
   ⟨[("b", .num 2)], some 0, some 0⟩,
   ⟨[("b", .num 3)], some 1, some 0⟩]

/-- C4 witness: from the innermost frame of `chainStore`, distance 1
finds the middle `b` only; looking `a` up at distance 1 fails with
`Undefined variable` even though the root holds `a` (no further search);
no distance reads the root directly. -/
theorem env_distance_navigation_witness :
    envGet chainStore 2 (idTok "b") (some 1) = .ok (.num 2) ∧
    envGet chainStore 2 (idTok "a") (some 1) =
      .error (.runtime 1 "Undefined variable 'a'.") ∧
    envGet chainStore 2 (idTok "a") none = .ok (.num 1) :=
  ⟨(env_distance_navigation chainStore 2 (idTok "b")).1 1 1 rfl |>.1,
   (env_distance_navigation chainStore 2 (idTok "a")).1 1 1 rfl |>.1,
   (env_distance_navigation chainStore 2 (idTok "a")).2.1 0 rfl⟩

/-! ## C3: return statements at top level -/

/-! Positions the resolver reaches with scope type `global`: directly at
top level, inside top-level blocks, and inside branches of top-level if
statements.  Loop bodies are resolved with type `loop` and function
bodies with type `function`, so returns inside them never sit at a
global-type position. -/
mutual

def hasTopReturnStmt : Stmt → ScopeType → Bool
  | .returnStmt _ _, ty => decide (ty = .global)
  | .block ss, ty => hasTopReturnList ss ty
  | .ifStmt _ t e, ty =>
      hasTopReturnStmt t ty ||
        (match e with
         | some eb => hasTopReturnStmt eb ty
         | none => false)
  | _, _ => false

def hasTopReturnList : List Stmt → ScopeType → Bool
  | [], _ => false
  | s :: rest, ty => hasTopReturnStmt s ty || hasTopReturnList rest ty

end

theorem scopePush_errs (st : RState) (ty : ScopeType) :
    (scopePush st ty).errs = st.errs := rfl

theorem scopePop_errs (st : RState) : (scopePop st).errs = st.errs := rfl

theorem scopeDeclare_errs (st : RState) (name : Token) :
    (scopeDeclare st name).errs = st.errs := by
  unfold scopeDeclare
  split
  · rfl
  · dsimp only
    split <;> rfl

theorem scopeDefine_errs (st : RState) (name : Token) :
    (scopeDefine st name).errs = st.errs := by
  unfold scopeDefine
  split <;> rfl

theorem resolveLocalF_errs (st : RState) (id : Nat) (name : Token) :
    (resolveLocalF st id name).errs = st.errs := by
  unfold resolveLocalF
  split <;> rfl

theorem foldl_declareDefine_errs :
    ∀ (ps : List Token) (st : RState),
      (ps.foldl (fun acc p => scopeDefine (scopeDeclare acc p) p) st).errs =
        st.errs := by
  intro ps
  induction ps with
  | nil => intro st; rfl
  | cons p rest ih =>
      intro st
      simp only [List.foldl_cons]
      rw [ih, scopeDefine_errs, scopeDeclare_errs]

/-! Resolver visits only ever append to the live error list. -/
mutual

theorem errsSub_expr : ∀ (e : Expr) (st : RState) (x : PError),
    x ∈ st.errs → x ∈ (resolveExpr e st).errs := by
  intro e st x hx
  cases e with
  | literal _ => simpa [resolveExpr] using hx
  | grouping inner => simp only [resolveExpr]; exact errsSub_expr inner st x hx
  | unary _ right => simp only [resolveExpr]; exact errsSub_expr right st x hx
  | binary l _ r =>
      simp only [resolveExpr]
      exact errsSub_expr r _ x (errsSub_expr l st x hx)
  | logical l _ r =>
      simp only [resolveExpr]
      exact errsSub_expr r _ x (errsSub_expr l st x hx)
  | varE id name =>
      simp only [resolveExpr]
      rw [resolveLocalF_errs]
      split
      · exact List.mem_append_left _ hx
      · exact hx
  | assignment id name v =>
      simp only [resolveExpr]
      rw [resolveLocalF_errs]
      exact errsSub_expr v st x hx
  | call callee _ args =>
      simp only [resolveExpr]
      exact errsSub_exprList args _ x (errsSub_expr callee st x hx)
  | anonymousFunction ps body =>
      simp only [resolveExpr]
      exact errsSub_fn ps body .function st x hx
termination_by e _ _ _ => (sizeOf e, 0)

theorem errsSub_exprList : ∀ (es : List Expr) (st : RState) (x : PError),
    x ∈ st.errs → x ∈ (resolveExprList es st).errs := by
  intro es st x hx
  cases es with
  | nil => simpa [resolveExprList] using hx
  | cons e rest =>
      simp only [resolveExprList]
      exact errsSub_exprList rest _ x (errsSub_expr e st x hx)
termination_by es _ _ _ => (sizeOf es, 0)

theorem errsSub_fn : ∀ (ps : List Token) (body : List Stmt) (ty : ScopeType)
    (st : RState) (x : PError), x ∈ st.errs →
    x ∈ (resolveFunctionR ps body ty st).errs := by
  intro ps body ty st x hx
  simp only [resolveFunctionR]
  rw [scopePop_errs]
  refine errsSub_stmtList body ty _ x ?_
  rw [foldl_declareDefine_errs, scopePush_errs]
  exact hx
termination_by _ body _ _ _ => (sizeOf body, 1)

theorem errsSub_stmt : ∀ (s : Stmt) (ty : ScopeType) (st : RState)
    (x : PError), x ∈ st.errs → x ∈ (resolveStmt s ty st).errs := by
  intro s ty st x hx
  cases s with
  | block stmts =>
      simp only [resolveStmt]
      rw [scopePop_errs]
      exact errsSub_stmtList stmts ty _ x hx
  | varDecl name init =>
      cases init with
      | none =>
          simp only [resolveStmt]
          rw [scopeDefine_errs, scopeDeclare_errs]
          exact hx
      | some e =>
          simp only [resolveStmt]
          rw [scopeDefine_errs]
          refine errsSub_expr e _ x ?_
          rw [scopeDeclare_errs]
          exact hx
  | functionStmt name ps body =>
      simp only [resolveStmt]
      refine errsSub_fn ps body .function _ x ?_
      rw [scopeDefine_errs, scopeDeclare_errs]
      exact hx
  | exprStmt e => simp only [resolveStmt]; exact errsSub_expr e st x hx
  | printStmt e => simp only [resolveStmt]; exact errsSub_expr e st x hx
  | ifStmt cond t e =>
      cases e with
      | none =>
          simp only [resolveStmt]
          exact errsSub_stmt t ty _ x (errsSub_expr cond st x hx)
      | some eb =>
          simp only [resolveStmt]
          exact errsSub_stmt eb ty _ x
            (errsSub_stmt t ty _ x (errsSub_expr cond st x hx))
  | whileStmt cond body =>
      simp only [resolveStmt]
      exact errsSub_stmt body .loop _ x (errsSub_expr cond st x hx)
  | breakStmt op =>
      simp only [resolveStmt]
      split
      · exact List.mem_append_left _ hx
      · exact hx
  | returnStmt kw v =>
      cases v with
      | none =>
          simp only [resolveStmt]
          split <;> first | exact List.mem_append_left _ hx | exact hx
      | some e =>
          simp only [resolveStmt]
          refine errsSub_expr e _ x ?_
          split <;> first | exact List.mem_append_left _ hx | exact hx
termination_by s _ _ _ => (sizeOf s, 0)

theorem errsSub_stmtList : ∀ (ss : List Stmt) (ty : ScopeType) (st : RState)
    (x : PError), x ∈ st.errs → x ∈ (resolveStmtList ss ty st).errs := by
  intro ss ty st x hx
  cases ss with
  | nil => simpa [resolveStmtList] using hx
  | cons s rest =>
      simp only [resolveStmtList]
      exact errsSub_stmtList rest ty _ x (errsSub_stmt s ty st x hx)
termination_by ss _ _ _ => (sizeOf ss, 0)

end

/-! A return at a global-type position makes the resolver record the
`Can't return from top-level code.` error. -/
mutual

theorem hasRet_stmt : ∀ (s : Stmt) (ty : ScopeType) (st : RState),
    hasTopReturnStmt s ty = true →
    ∃ e ∈ (resolveStmt s ty st).errs,
      e.msg = "Can't return from top-level code." := by
  intro s ty st h
  cases s with
  | returnStmt kw v =>
      have hty : ty = .global := by simpa [hasTopReturnStmt] using h
      subst hty
      have hmem : parseErrorOf kw "Can't return from top-level code." ∈
          (if (ScopeType.global : ScopeType) = .global then
            { st with errs := st.errs ++
                [parseErrorOf kw "Can't return from top-level code."] }
          else st).errs := by
        rw [if_pos rfl]
        exact List.mem_append_right _ (List.mem_singleton.mpr rfl)
      cases v with
      | none =>
          refine ⟨parseErrorOf kw "Can't return from top-level code.", ?_, rfl⟩
          simp only [resolveStmt]
          exact hmem
      | some e =>
          refine ⟨parseErrorOf kw "Can't return from top-level code.", ?_, rfl⟩
          simp only [resolveStmt]
          exact errsSub_expr e _ _ hmem
  | block stmts =>
      have hb : hasTopReturnList stmts ty = true := by
        simpa [hasTopReturnStmt] using h
      obtain ⟨e, hmem, hmsg⟩ := hasRet_list stmts ty (scopePush st ty) hb
      refine ⟨e, ?_, hmsg⟩
      simp only [resolveStmt]
      rw [scopePop_errs]
      exact hmem
  | ifStmt cond t eb =>
      rw [hasTopReturnStmt.eq_def] at h
      dsimp only at h
      simp only [Bool.or_eq_true] at h
      rcases h with h | h
      · obtain ⟨e, hmem, hmsg⟩ := hasRet_stmt t ty (resolveExpr cond st) h
        cases eb with
        | none =>
            simp only [resolveStmt]
            exact ⟨e, hmem, hmsg⟩
        | some ebs =>
            simp only [resolveStmt]
            exact ⟨e, errsSub_stmt ebs ty _ e hmem, hmsg⟩
      · cases eb with
        | none => simp at h
        | some ebs =>
            simp only [resolveStmt]
            obtain ⟨e, hmem, hmsg⟩ :=
              hasRet_stmt ebs ty (resolveStmt t ty (resolveExpr cond st)) h
            exact ⟨e, hmem, hmsg⟩
  | exprStmt e => simp [hasTopReturnStmt.eq_def] at h
  | printStmt e => simp [hasTopReturnStmt.eq_def] at h
  | varDecl _ _ => simp [hasTopReturnStmt.eq_def] at h
  | whileStmt _ _ => simp [hasTopReturnStmt.eq_def] at h
  | breakStmt _ => simp [hasTopReturnStmt.eq_def] at h
  | functionStmt _ _ _ => simp [hasTopReturnStmt.eq_def] at h
termination_by s _ _ => sizeOf s

theorem hasRet_list : ∀ (ss : List Stmt) (ty : ScopeType) (st : RState),
    hasTopReturnList ss ty = true →
    ∃ e ∈ (resolveStmtList ss ty st).errs,
      e.msg = "Can't return from top-level code." := by
  intro ss ty st h
  cases ss with
  | nil => simp [hasTopReturnList] at h
  | cons s rest =>
      simp only [hasTopReturnList, Bool.or_eq_true] at h
      simp only [resolveStmtList]
      rcases h with h | h
      · obtain ⟨e, hmem, hmsg⟩ := hasRet_stmt s ty st h
        exact ⟨e, errsSub_stmtList rest ty _ e hmem, hmsg⟩
      · exact hasRet_list rest ty (resolveStmt s ty st) h
termination_by ss _ _ => sizeOf ss

end

/-- C3 counterexample.  `while (true) { return; }` at top level: the
while body is resolved with scope type `loop`, so `visitReturnStmt`'s
`type === "global"` test fails and *no* resolve error is recorded —
`resolve` succeeds, contradicting the claim's "including top-level loop
bodies"; running the program then lets the return signal escape the
evaluator as a thrown error. -/
theorem top_loop_return_unflagged :
    resolveProgram topLoopReturnProg = .ok [] ∧
    (interpretProgram 4 topLoopReturnProg []).1 = .error (.retSig .nil) := by
  constructor
  · simp [resolveProgram, resolveFull, topLoopReturnProg, resolveStmtList,
      resolveStmt, resolveExpr, initRState]
  · rfl

/-- C3 (amended).  A return statement at a position the resolver reaches
with scope type global — top level directly, top-level blocks, and
top-level if branches, but *not* loop bodies (resolved with type loop)
or function bodies — makes the resolve pass record
`Can't return from top-level code.` and raise the aggregate resolve
error. -/
theorem top_level_return_flagged (stmts : List Stmt)
    (h : hasTopReturnList stmts .global = true) :
    (∃ e ∈ (resolveFull stmts).errs,
        e.msg = "Can't return from top-level code.") ∧
    resolveProgram stmts = .error (resolveFull stmts).errs := by
  obtain ⟨e, hmem, hmsg⟩ := hasRet_list stmts .global initRState h
  refine ⟨⟨e, hmem, hmsg⟩, ?_⟩
  have hne : (resolveFull stmts).errs ≠ [] := by
    intro hnil
    rw [resolveFull] at hnil
    rw [hnil] at hmem
    exact absurd hmem (List.not_mem_nil e)
  unfold resolveProgram
  simp [resolveFull] at hne ⊢
  exact hne

/-- C3 witness: a bare top-level `return;` is flagged and the aggregate
resolve error raised. -/
theorem top_level_return_flagged_witness :
    (∃ e ∈ (resolveFull topReturnProg).errs,
        e.msg = "Can't return from top-level code.") ∧
    resolveProgram topReturnProg = .error (resolveFull topReturnProg).errs :=
  top_level_return_flagged topReturnProg
    (by simp [topReturnProg, hasTopReturnList, hasTopReturnStmt])

/-! ## C9: left-associative folding of equal-precedence chains -/

def numTok (s : String) (n : Rat) : Token := ⟨.NUMBER, s, .num n, 1⟩
def eofTok : Token := ⟨.EOF, "", .nil, 1⟩

/-- The token stream of `1 == 7 == 6 == 4 != 2`. -/
def chainToks : List Token :=
  [numTok "1" 1, eqeqTok, numTok "7" 7, eqeqTok, numTok "6" 6, eqeqTok,
   numTok "4" 4, bangeqTok, numTok "2" 2, eofTok]

/-- The tree `(!= (== (== (== 1 7) 6) 4) 2)`. -/
def expectedChainTree : Expr :=
  .binary
    (.binary (.binary (.binary (numLit 1) eqeqTok (numLit 7)) eqeqTok (numLit 6))
      eqeqTok (numLit 4))
    bangeqTok (numLit 2)

/-- A run of the `leftSeries` loop described step by step: each step
matches one operator from `matchTypes` and parses one right operand with
`exprFn`; the run ends at a state whose lookahead matches none of
them. -/
inductive ChainSteps (exprFn : PState → PRes Expr)
    (matchTypes : List TokType) : PState → List (Token × Expr) → PState → Prop where
  | nil (st st' : PState) :
      matchTok matchTypes st = .ok (false, st') →
      ChainSteps exprFn matchTypes st [] st'
  | cons (st st₁ st₂ stF : PState) (op : Token) (rhs : Expr)
      (steps : List (Token × Expr)) :
      matchTok matchTypes st = .ok (true, st₁) →
      previousTok st₁ = .ok op →
      exprFn st₁ = (.ok rhs, st₂) →
      ChainSteps exprFn matchTypes st₂ steps stF →
      ChainSteps exprFn matchTypes st ((op, rhs) :: steps) stF

/-- The left fold the loop is claimed to compute. -/
def foldChain (kind : OpKind) (acc : Expr) : List (Token × Expr) → Expr
  | [] => acc
  | (op, rhs) :: rest => foldChain kind (mkOp kind acc op rhs) rest

/-- The `leftSeries` loop folds its operator chain left-associatively. -/
theorem leftSeriesGo_fold (exprFn : PState → PRes Expr)
    (matchTypes : List TokType) (kind : OpKind) :
    ∀ (steps : List (Token × Expr)) (fuel : Nat) (acc : Expr) (st stF : PState),
      ChainSteps exprFn matchTypes st steps stF → steps.length < fuel →
      leftSeriesGo exprFn matchTypes kind fuel acc st =
        (.ok (foldChain kind acc steps), stF) := by
  intro steps
  induction steps with
  | nil =>
      intro fuel acc st stF hch hf
      cases hch with
      | nil _ _ hm =>
          cases fuel with
          | zero => exact absurd hf (by simp)
          | succ f =>
              simp only [leftSeriesGo]
              rw [hm]
              rfl
  | cons step rest ih =>
      intro fuel acc st stF hch hf
      cases hch with
      | cons _ st₁ st₂ _ op rhs _ hm hprev hexpr hrest =>
          cases fuel with
          | zero => exact absurd hf (by simp)
          | succ f =>
              simp only [leftSeriesGo]
              rw [hm]
              dsimp only
              rw [hprev]
              dsimp only
              rw [hexpr]
              exact ih f (mkOp kind acc op rhs) st₂ stF hrest
                (Nat.lt_of_succ_lt_succ hf)

/-- C9.  Chains of equal-precedence operators fold left-associatively:
concretely, the token stream of `1 == 7 == 6 == 4 != 2` parses to
`(!= (== (== (== 1 7) 6) 4) 2)`; generally, whenever the equality
level's loop consumes operand/operator steps (each operator `==` or
`!=`), the resulting tree is the left fold of those steps over the first
operand. -/
theorem equality_chain_left_assoc :
    (expressionP 64 (initPState chainToks)).1 = .ok expectedChainTree ∧
    (∀ (f : Nat) (st st₀ stF : PState) (e₀ : Expr)
        (steps : List (Token × Expr)),
      comparisonP f st = (.ok e₀, st₀) →
      ChainSteps (fun s => comparisonP f s) [.BANG_EQUAL, .EQUAL_EQUAL]
        st₀ steps stF →
      steps.length < f →
      equalityP (f + 1) st = (.ok (foldChain .binary e₀ steps), stF)) := by
  constructor
  · rfl
  · intro f st st₀ stF e₀ steps h₀ hch hf
    simp only [equalityP, leftSeriesP]
    rw [h₀]
    exact leftSeriesGo_fold _ _ _ steps f e₀ st₀ stF hch hf

/-- Parser state over `chainToks` at position `p` with memo `lst`. -/
def chainSt (p : Nat) (lst : Option Token) : PState :=
  ⟨chainToks, p, lst, [], 0⟩

/-- C9 witness: the general fold applied to the concrete four-step chain
of `1 == 7 == 6 == 4 != 2`. -/
theorem equality_chain_left_assoc_witness :
    equalityP 9 (initPState chainToks) =
      (.ok expectedChainTree, chainSt 9 (some (numTok "2" 2))) :=
  equality_chain_left_assoc.2 8 (initPState chainToks)
    (chainSt 1 (some (numTok "1" 1))) (chainSt 9 (some (numTok "2" 2)))
    (numLit 1)
    [(eqeqTok, numLit 7), (eqeqTok, numLit 6), (eqeqTok, numLit 4),
     (bangeqTok, numLit 2)]
    rfl
    (.cons _ (chainSt 2 (some eqeqTok)) (chainSt 3 (some (numTok "7" 7))) _
      eqeqTok (numLit 7) _ rfl rfl rfl
      (.cons _ (chainSt 4 (some eqeqTok)) (chainSt 5 (some (numTok "6" 6))) _
        eqeqTok (numLit 6) _ rfl rfl rfl
        (.cons _ (chainSt 6 (some eqeqTok)) (chainSt 7 (some (numTok "4" 4))) _
          eqeqTok (numLit 4) _ rfl rfl rfl
          (.cons _ (chainSt 8 (some bangeqTok)) (chainSt 9 (some (numTok "2" 2))) _
            bangeqTok (numLit 2) _ rfl rfl rfl
            (.nil _ _ rfl)))))
    (by decide)

/-! ## C10: the 255-parameter limit and anonymous function expressions -/

def commaTok : Token := ⟨.COMMA, ",", .nil, 1⟩
def funTok : Token := ⟨.FUN, "fun", .nil, 1⟩
def lparenTok : Token := ⟨.LEFT_PAREN, "(", .nil, 1⟩
def rparenTok : Token := ⟨.RIGHT_PAREN, ")", .nil, 1⟩
def lbraceTok : Token := ⟨.LEFT_BRACE, "\x7b", .nil, 1⟩
def rbraceTok : Token := ⟨.RIGHT_BRACE, "\x7d", .nil, 1⟩
def pTok : Token := ⟨.IDENTIFIER, "p", .nil, 1⟩

/-- Comma-separated rendering of a parameter or argument list. -/
def sepByComma : List Token → List Token
  | [] => []
  | [t] => [t]
  | t :: rest => t :: commaTok :: sepByComma rest

theorem sepByComma_length :
    ∀ (names : List Token), names ≠ [] →
      (sepByComma names).length = 2 * names.length - 1 := by
  intro names
  induction names with
  | nil => intro h; exact absurd rfl h
  | cons n ns ih =>
      intro _
      cases ns with
      | nil => rfl
      | cons n' ns' =>
          show (n :: commaTok :: sepByComma (n' :: ns')).length = _
          have := ih (by simp)
          simp only [List.length_cons] at this ⊢
          omega

theorem get?_eq_head?_drop {α : Type} :
    ∀ (n : Nat) (l : List α), l.get? n = (l.drop n).head? := by
  intro n
  induction n with
  | zero => intro l; cases l <;> rfl
  | succ n ih => intro l; cases l <;> simp [ih]

theorem drop_succ_of_drop {α : Type} :
    ∀ (n : Nat) (l : List α) (x : α) (xs : List α),
      l.drop n = x :: xs → l.drop (n + 1) = xs := by
  intro n
  induction n with
  | zero =>
      intro l x xs h
      subst h
      rfl
  | succ n ih =>
      intro l x xs h
      cases l with
      | nil => simp at h
      | cons y ys =>
          simp only [List.drop_succ_cons] at h ⊢
          exact ih ys x xs h

theorem peekTok_of_drop (st : PState) (x : Token) (xs : List Token)
    (h : st.toks.drop st.pos = x :: xs) : peekTok st = .ok x := by
  unfold peekTok
  rw [show st.pos + 0 = st.pos from rfl, get?_eq_head?_drop, h]
  rfl

theorem advanceTok_of_drop (st : PState) (x : Token) (xs : List Token)
    (h : st.toks.drop st.pos = x :: xs) :
    advanceTok st = .ok (x, { st with pos := st.pos + 1, last := some x }) := by
  unfold advanceTok
  rw [peekTok_of_drop st x xs h]

/-- The anonymous-function parameter loop consumes the whole
comma-separated identifier list, records nothing, and leaves every other
state component unchanged. -/
theorem paramLoopE_run :
    ∀ (names : List Token), names ≠ [] →
      (∀ t ∈ names, t.type = .IDENTIFIER) →
      ∀ (acc : List Token) (st : PState) (fuel : Nat) (t : Token)
        (ts : List Token),
        names.length ≤ fuel →
        st.toks.drop st.pos = sepByComma names ++ t :: ts →
        t.type ≠ .COMMA →
        ∃ lst, paramLoopE fuel acc st =
          (.ok (acc ++ names),
           { st with pos := st.pos + (2 * names.length - 1), last := lst }) := by
  intro names
  induction names with
  | nil => intro h; exact absurd rfl h
  | cons n ns ih =>
      intro _ htypes acc st fuel t ts hfuel hdrop ht
      cases fuel with
      | zero => simp at hfuel
      | succ f =>
          cases ns with
          | nil =>
              have hd : st.toks.drop st.pos = n :: t :: ts := by
                simpa [sepByComma] using hdrop
              have hpk := peekTok_of_drop st n (t :: ts) hd
              have hnty : n.type = .IDENTIFIER := htypes n (by simp)
              refine ⟨some n, ?_⟩
              simp only [paramLoopE, consumeTok, hpk]
              rw [hnty]
              simp only [ne_eq, reduceCtorEq, not_false_eq_true, and_self,
                if_true, reduceIte]
              rw [advanceTok_of_drop st n (t :: ts) hd]
              dsimp only
              have hd1 : st.toks.drop (st.pos + 1) = t :: ts :=
                drop_succ_of_drop st.pos st.toks n (t :: ts) hd
              have hpk1 : peekTok { st with pos := st.pos + 1, last := some n }
                  = .ok t := by
                apply peekTok_of_drop _ t ts
                simpa using hd1
              simp only [matchTok, hpk1]
              have : ¬(t.type ≠ TokType.EOF ∧ [TokType.COMMA].contains t.type) := by
                intro ⟨_, hc⟩
                simp [List.contains] at hc
                exact ht hc
              rw [if_neg this]
              rfl
          | cons n' ns' =>
              have hd : st.toks.drop st.pos =
                  n :: commaTok :: (sepByComma (n' :: ns') ++ t :: ts) := by
                simpa [sepByComma] using hdrop
              have hpk := peekTok_of_drop st n _ hd
              have hnty : n.type = .IDENTIFIER := htypes n (by simp)
              have hd1 : st.toks.drop (st.pos + 1) =
                  commaTok :: (sepByComma (n' :: ns') ++ t :: ts) :=
                drop_succ_of_drop st.pos st.toks n _ hd
              have hd2 : st.toks.drop (st.pos + 2) =
                  sepByComma (n' :: ns') ++ t :: ts :=
                drop_succ_of_drop (st.pos + 1) st.toks commaTok _ hd1
              have hnext := ih (by simp) (fun u hu => htypes u (by simp [hu]))
                (acc ++ [n])
                { st with pos := st.pos + 2, last := some commaTok }
                f t ts (by simpa using Nat.le_of_succ_le_succ hfuel)
                (by simpa using hd2) ht
              obtain ⟨lst, hrun⟩ := hnext
              refine ⟨lst, ?_⟩
              simp only [paramLoopE, consumeTok, hpk]
              rw [hnty]
              simp only [ne_eq, reduceCtorEq, not_false_eq_true, and_self,
                if_true, reduceIte]
              rw [advanceTok_of_drop st n _ hd]
              dsimp only
              have hpk1 : peekTok { st with pos := st.pos + 1, last := some n }
                  = .ok commaTok := by
                apply peekTok_of_drop _ commaTok _
                simpa using hd1
              simp only [matchTok, hpk1]
              rw [if_pos (by constructor <;> simp [commaTok, List.contains])]
              rw [advanceTok_of_drop
                    { st with pos := st.pos + 1, last := some n } commaTok _
                    (by simpa using hd1)]
              dsimp only
              rw [show ({ st with pos := st.pos + 1, last := some n } :
                    PState).pos + 1 = st.pos + 2 from rfl] at hrun ⊢
              rw [hrun]
              have harith : st.pos + 2 + (2 * (n' :: ns').length - 1) =
                  st.pos + (2 * (n :: n' :: ns').length - 1) := by
                simp only [List.length_cons]
                omega
              rw [show (acc ++ [n]) ++ (n' :: ns') = acc ++ (n :: n' :: ns')
                    by simp]
              rw [harith]

/-! Single-token step lemmas for the parser, driven by the shape of the
token stream at the current position. -/

theorem matchTok_hit (types : List TokType) (st : PState) (x : Token)
    (xs : List Token) (h : st.toks.drop st.pos = x :: xs)
    (h1 : x.type ≠ TokType.EOF) (h2 : types.contains x.type = true) :
    matchTok types st =
      .ok (true, { st with pos := st.pos + 1, last := some x }) := by
  unfold matchTok
  rw [peekTok_of_drop st x xs h]
  dsimp only
  rw [if_pos ⟨h1, h2⟩, advanceTok_of_drop st x xs h]

theorem matchTok_miss (types : List TokType) (st : PState) (x : Token)
    (xs : List Token) (h : st.toks.drop st.pos = x :: xs)
    (hx : ¬(x.type ≠ TokType.EOF ∧ types.contains x.type = true)) :
    matchTok types st = .ok (false, st) := by
  unfold matchTok
  rw [peekTok_of_drop st x xs h]
  dsimp only
  rw [if_neg hx]

theorem consumeTok_hit (ty : TokType) (msg : String) (st : PState) (x : Token)
    (xs : List Token) (h : st.toks.drop st.pos = x :: xs)
    (h1 : x.type ≠ TokType.EOF) (h2 : x.type = ty) :
    consumeTok ty msg st =
      .ok (x, { st with pos := st.pos + 1, last := some x }) := by
  unfold consumeTok
  rw [peekTok_of_drop st x xs h]
  dsimp only
  rw [if_pos ⟨h1, h2⟩, advanceTok_of_drop st x xs h]

theorem checkTok_eval (ty : TokType) (st : PState) (x : Token)
    (xs : List Token) (h : st.toks.drop st.pos = x :: xs) :
    checkTok ty st = .ok (decide (x.type ≠ TokType.EOF ∧ x.type = ty)) := by
  unfold checkTok
  rw [peekTok_of_drop st x xs h]

theorem isAtEndTok_eval (st : PState) (x : Token) (xs : List Token)
    (h : st.toks.drop st.pos = x :: xs) :
    isAtEndTok st = .ok (decide (x.type = TokType.EOF)) := by
  unfold isAtEndTok
  rw [peekTok_of_drop st x xs h]

/-- Parsing `{` `}` (an empty block body) after the opening brace has
been consumed. -/
theorem blockStatement_empty (f : Nat) (st : PState) (xs : List Token)
    (h : st.toks.drop st.pos = rbraceTok :: xs) :
    blockStatementP (f + 2) st =
      (.ok [], { st with pos := st.pos + 1, last := some rbraceTok }) := by
  have hb : blockLoopP (f + 1) [] st = (.ok [], st) := by
    simp only [blockLoopP]
    rw [checkTok_eval _ _ rbraceTok _ h, isAtEndTok_eval _ rbraceTok _ h]
    rfl
  rw [show f + 2 = (f + 1) + 1 from rfl]
  simp only [blockStatementP]
  rw [hb]
  dsimp only
  rw [consumeTok_hit TokType.RIGHT_BRACE _ _ rbraceTok xs h (by decide) rfl]

/-- The token stream of the expression `fun (p1, ..., pn) {}`. -/
def funExprToks (names : List Token) : List Token :=
  funTok :: lparenTok ::
    (sepByComma names ++ [rparenTok, lbraceTok, rbraceTok, eofTok])

/-- Parsing an anonymous `fun (...) {}` expression succeeds with the
given parameter list and records no parse error at all, whatever the
number of parameters. -/
theorem functionExpr_run (names : List Token)
    (htypes : ∀ t ∈ names, t.type = .IDENTIFIER) :
    ∃ p, expressionP (names.length + 8) (initPState (funExprToks names)) =
      (.ok (.anonymousFunction names []),
       ⟨funExprToks names, p, some rbraceTok, [], 0⟩) := by
  cases names with
  | nil => exact ⟨5, rfl⟩
  | cons n ns =>
      refine ⟨2 * (n :: ns).length + 4, ?_⟩
      obtain ⟨ys, hys⟩ : ∃ ys, sepByComma (n :: ns) = n :: ys := by
        cases ns with
        | nil => exact ⟨[], rfl⟩
        | cons a l => exact ⟨commaTok :: sepByComma (a :: l), rfl⟩
      have hnty : n.type = .IDENTIFIER := htypes n (by simp)
      have hd2 : (funExprToks (n :: ns)).drop 2 =
          n :: (ys ++ [rparenTok, lbraceTok, rbraceTok, eofTok]) := by
        show sepByComma (n :: ns) ++ [rparenTok, lbraceTok, rbraceTok, eofTok]
            = _
        rw [hys]
        rfl
      have hdL : (funExprToks (n :: ns)).drop
            ((sepByComma (n :: ns)).length + 2) =
          [rparenTok, lbraceTok, rbraceTok, eofTok] := by
        show (sepByComma (n :: ns) ++
            [rparenTok, lbraceTok, rbraceTok, eofTok]).drop
            (sepByComma (n :: ns)).length = _
        exact List.drop_left _ _
      have hlen : (sepByComma (n :: ns)).length + 2 =
          2 * (n :: ns).length + 1 := by
        rw [sepByComma_length (n :: ns) (by simp)]
        simp only [List.length_cons]
        omega
      rw [hlen] at hdL
      have hd6 : (funExprToks (n :: ns)).drop (2 * (n :: ns).length + 2) =
          [lbraceTok, rbraceTok, eofTok] :=
        drop_succ_of_drop _ _ rparenTok _ hdL
      have hd7 : (funExprToks (n :: ns)).drop (2 * (n :: ns).length + 3) =
          [rbraceTok, eofTok] :=
        drop_succ_of_drop _ _ lbraceTok _ hd6
      obtain ⟨lst, hloop⟩ := paramLoopE_run (n :: ns) (by simp) htypes []
        (⟨funExprToks (n :: ns), 2, some lparenTok, [], 0⟩ : PState)
        ((n :: ns).length + 6) rparenTok [lbraceTok, rbraceTok, eofTok]
        (by omega) rfl (by decide)
      have e1 : matchTok [.FUN] (initPState (funExprToks (n :: ns))) =
          .ok (true, (⟨funExprToks (n :: ns), 1, some funTok, [], 0⟩ :
            PState)) :=
        matchTok_hit _ (initPState (funExprToks (n :: ns))) funTok _ rfl
          (by decide) (by decide)
      have e2 : consumeTok .LEFT_PAREN "Expect '(' after 'fun'."
            (⟨funExprToks (n :: ns), 1, some funTok, [], 0⟩ : PState) =
          .ok (lparenTok,
            ⟨funExprToks (n :: ns), 2, some lparenTok, [], 0⟩) :=
        consumeTok_hit _ _
          (⟨funExprToks (n :: ns), 1, some funTok, [], 0⟩ : PState)
          lparenTok _ rfl (by decide) rfl
      have e3 : checkTok .RIGHT_PAREN
            (⟨funExprToks (n :: ns), 2, some lparenTok, [], 0⟩ : PState) =
          .ok false := by
        rw [checkTok_eval .RIGHT_PAREN
              (⟨funExprToks (n :: ns), 2, some lparenTok, [], 0⟩ : PState)
              n _ hd2, hnty]
        rfl
      have e4 : paramLoopE ((n :: ns).length + 6) []
            (⟨funExprToks (n :: ns), 2, some lparenTok, [], 0⟩ : PState) =
          (.ok (n :: ns),
            ⟨funExprToks (n :: ns), 2 * (n :: ns).length + 1, lst, [], 0⟩) := by
        rw [hloop]
        dsimp only
        rw [show 2 + (2 * (n :: ns).length - 1) =
              2 * (n :: ns).length + 1 from by
            simp only [List.length_cons]; omega]
        rw [List.nil_append]
      have e5 : consumeTok .RIGHT_PAREN "Expect ')' after parameters."
            (⟨funExprToks (n :: ns), 2 * (n :: ns).length + 1, lst, [], 0⟩ :
              PState) =
          .ok (rparenTok,
            ⟨funExprToks (n :: ns), 2 * (n :: ns).length + 2,
              some rparenTok, [], 0⟩) :=
        consumeTok_hit _ _ _ rparenTok _ hdL (by decide) rfl
      have e6 : consumeTok .LEFT_BRACE "Expect '\x7b' before function body."
            (⟨funExprToks (n :: ns), 2 * (n :: ns).length + 2,
              some rparenTok, [], 0⟩ : PState) =
          .ok (lbraceTok,
            ⟨funExprToks (n :: ns), 2 * (n :: ns).length + 3,
              some lbraceTok, [], 0⟩) :=
        consumeTok_hit _ _ _ lbraceTok _ hd6 (by decide) rfl
      have e7 : blockStatementP ((n :: ns).length + 6)
            (⟨funExprToks (n :: ns), 2 * (n :: ns).length + 3,
              some lbraceTok, [], 0⟩ : PState) =
          (.ok [],
            ⟨funExprToks (n :: ns), 2 * (n :: ns).length + 4,
              some rbraceTok, [], 0⟩) := by
        rw [show (n :: ns).length + 6 = ((n :: ns).length + 4) + 2 from rfl]
        exact blockStatement_empty _ _ _ hd7
      rw [show ((n :: ns).length + 8) = ((n :: ns).length + 7) + 1 from rfl]
      simp only [expressionP]
      rw [show ((n :: ns).length + 7) = ((n :: ns).length + 6) + 1 from rfl]
      simp only [functionExprP]
      rw [e1]
      dsimp only
      rw [e2]
      dsimp only
      rw [e3]
      dsimp only
      rw [e4]
      rw [if_neg (by decide : ¬(false = true))]
      dsimp only
      rw [e5]
      dsimp only
      rw [e6]
      dsimp only
      rw [e7]

/-- The errors recorded by a 255-checked element loop (`paramLoopD`,
`argLoopP`) while consuming the listed elements, the accumulator holding
`k` elements at entry: one error naming the peeked token per iteration
whose accumulator already holds 255 elements or more. -/
def overflowErrs (msg : String) : Nat → List Token → List PError
  | _, [] => []
  | k, n :: rest =>
      (if k ≥ 255 then [parseErrorOf n msg] else []) ++
        overflowErrs msg (k + 1) rest

theorem overflowErrs_eq_nil (msg : String) :
    ∀ (names : List Token) (k : Nat), k + names.length ≤ 255 →
      overflowErrs msg k names = [] := by
  intro names
  induction names with
  | nil => intro k _; rfl
  | cons n rest ih =>
      intro k hk
      simp only [List.length_cons] at hk
      simp only [overflowErrs]
      rw [if_neg (by omega), List.nil_append]
      exact ih (k + 1) (by omega)

theorem overflowErrs_ne_nil (msg : String) :
    ∀ (names : List Token) (k : Nat), 256 ≤ k + names.length →
      names ≠ [] → overflowErrs msg k names ≠ [] := by
  intro names
  induction names with
  | nil => intro k _ h; exact absurd rfl h
  | cons n rest ih =>
      intro k hk _
      simp only [List.length_cons] at hk
      simp only [overflowErrs]
      by_cases hc : k ≥ 255
      · rw [if_pos hc]
        simp
      · rw [if_neg hc, List.nil_append]
        cases rest with
        | nil => exact absurd hk (by simp; omega)
        | cons r rs =>
            exact ih (k + 1)
              (by simp only [List.length_cons] at hk ⊢; omega) (by simp)

theorem overflowErrs_nil_iff (msg : String) (names : List Token) :
    overflowErrs msg 0 names = [] ↔ names.length ≤ 255 := by
  constructor
  · intro h
    by_contra hgt
    exact overflowErrs_ne_nil msg names 0 (by omega)
      (by intro hn; subst hn; simp at hgt) h
  · intro h
    exact overflowErrs_eq_nil msg names 0 (by omega)

/-- The `if (list.length >= 255) errors.push(parseError(peek(), msg))`
guard, as a single state transformation. -/
theorem guard_state_eq (c : Prop) [Decidable c] (toks : List Token)
    (pos : Nat) (last0 : Option Token) (errs0 : List PError) (nid : Nat)
    (e : PError) :
    (if c then recordErr ⟨toks, pos, last0, errs0, nid⟩ e
     else (⟨toks, pos, last0, errs0, nid⟩ : PState)) =
      ⟨toks, pos, last0, errs0 ++ (if c then [e] else []), nid⟩ := by
  by_cases hc : c
  · rw [if_pos hc, if_pos hc]
    rfl
  · rw [if_neg hc, if_neg hc, List.append_nil]

theorem comma_miss (t : Token) (ht : t.type ≠ .COMMA) :
    ¬(t.type ≠ TokType.EOF ∧ [TokType.COMMA].contains t.type = true) := by
  intro hcon
  have hc := hcon.2
  simp [List.contains] at hc
  exact ht hc

/-- The named declaration's parameter loop consumes the whole
comma-separated identifier list and records exactly the overflow
errors: one `Can't have more than 255 parameters.` entry per parameter
past the 255th. -/
theorem paramLoopD_run :
    ∀ (names : List Token), names ≠ [] →
      (∀ t ∈ names, t.type = .IDENTIFIER) →
      ∀ (acc : List Token) (toks : List Token) (pos : Nat)
        (last0 : Option Token) (errs0 : List PError) (nid : Nat)
        (fuel : Nat) (t : Token) (ts : List Token),
        names.length ≤ fuel →
        toks.drop pos = sepByComma names ++ t :: ts →
        t.type ≠ .COMMA →
        ∃ lst, paramLoopD fuel acc ⟨toks, pos, last0, errs0, nid⟩ =
          (.ok (acc ++ names),
           ⟨toks, pos + (2 * names.length - 1), lst,
            errs0 ++ overflowErrs "Can't have more than 255 parameters."
              acc.length names, nid⟩) := by
  intro names
  induction names with
  | nil => intro h; exact absurd rfl h
  | cons n ns ih =>
      intro _ htypes acc toks pos last0 errs0 nid fuel t ts hfuel hdrop ht
      cases fuel with
      | zero => simp at hfuel
      | succ f =>
          have hnty : n.type = .IDENTIFIER := htypes n (by simp)
          cases ns with
          | nil =>
              have hd : toks.drop pos = n :: t :: ts := by
                simpa [sepByComma] using hdrop
              have hd1 : toks.drop (pos + 1) = t :: ts :=
                drop_succ_of_drop pos toks n _ hd
              refine ⟨some n, ?_⟩
              simp only [paramLoopD]
              rw [peekTok_of_drop (⟨toks, pos, last0, errs0, nid⟩ : PState)
                    n _ hd]
              dsimp only
              rw [← apply_ite Except.ok, guard_state_eq]
              dsimp only
              rw [consumeTok_hit .IDENTIFIER _
                    (⟨toks, pos, last0,
                      errs0 ++ (if acc.length ≥ 255 then
                        [parseErrorOf n
                          "Can't have more than 255 parameters."] else []),
                      nid⟩ : PState) n _ hd (by rw [hnty]; decide) hnty]
              dsimp only
              rw [matchTok_miss [.COMMA]
                    (⟨toks, pos + 1, some n,
                      errs0 ++ (if acc.length ≥ 255 then
                        [parseErrorOf n
                          "Can't have more than 255 parameters."] else []),
                      nid⟩ : PState) t ts hd1 (comma_miss t ht)]
              simp only [overflowErrs, List.append_nil]
              rfl
          | cons n' ns' =>
              have hd : toks.drop pos =
                  n :: commaTok :: (sepByComma (n' :: ns') ++ t :: ts) := by
                simpa [sepByComma] using hdrop
              have hd1 : toks.drop (pos + 1) =
                  commaTok :: (sepByComma (n' :: ns') ++ t :: ts) :=
                drop_succ_of_drop pos toks n _ hd
              have hd2 : toks.drop (pos + 2) =
                  sepByComma (n' :: ns') ++ t :: ts :=
                drop_succ_of_drop (pos + 1) toks commaTok _ hd1
              obtain ⟨lst, hrun⟩ := ih (by simp)
                (fun u hu => htypes u (by simp [hu]))
                (acc ++ [n]) toks (pos + 2) (some commaTok)
                (errs0 ++ (if acc.length ≥ 255 then
                  [parseErrorOf n "Can't have more than 255 parameters."]
                  else []))
                nid f t ts (by simpa using Nat.le_of_succ_le_succ hfuel)
                hd2 ht
              refine ⟨lst, ?_⟩
              simp only [paramLoopD]
              rw [peekTok_of_drop (⟨toks, pos, last0, errs0, nid⟩ : PState)
                    n _ hd]
              dsimp only
              rw [← apply_ite Except.ok, guard_state_eq]
              dsimp only
              rw [consumeTok_hit .IDENTIFIER _
                    (⟨toks, pos, last0,
                      errs0 ++ (if acc.length ≥ 255 then
                        [parseErrorOf n
                          "Can't have more than 255 parameters."] else []),
                      nid⟩ : PState) n _ hd (by rw [hnty]; decide) hnty]
              dsimp only
              rw [matchTok_hit [.COMMA]
                    (⟨toks, pos + 1, some n,
                      errs0 ++ (if acc.length ≥ 255 then
                        [parseErrorOf n
                          "Can't have more than 255 parameters."] else []),
                      nid⟩ : PState) commaTok _ hd1 (by decide) (by decide)]
              dsimp only
              rw [show pos + 1 + 1 = pos + 2 from rfl]
              rw [hrun]
              congr 1
              · simp
              · congr 1
                · simp only [List.length_cons]
                  omega
                · simp [overflowErrs, List.append_assoc]

/-! Parsing a single NUMBER-token argument expression: the whole
precedence ladder passes the literal through, consuming one token, when
the following token continues none of the levels. -/

theorem sep_miss (t : Token) (types : List TokType)
    (ht : t.type = .COMMA ∨ t.type = .RIGHT_PAREN)
    (h1 : types.contains TokType.COMMA = false)
    (h2 : types.contains TokType.RIGHT_PAREN = false) :
    ¬(t.type ≠ TokType.EOF ∧ types.contains t.type = true) := by
  intro hcon
  rcases ht with h | h
  · rw [h, h1] at hcon
    exact absurd hcon.2 (by decide)
  · rw [h, h2] at hcon
    exact absurd hcon.2 (by decide)

theorem leftSeriesP_single (exprFn : PState → PRes Expr)
    (types : List TokType) (kind : OpKind) (g : Nat) (st ST1 : PState)
    (e : Expr) (t : Token) (rest : List Token)
    (hfn : exprFn st = (.ok e, ST1))
    (hd : ST1.toks.drop ST1.pos = t :: rest)
    (hx : ¬(t.type ≠ TokType.EOF ∧ types.contains t.type = true)) :
    leftSeriesP exprFn types kind (g + 1) st = (.ok e, ST1) := by
  unfold leftSeriesP
  rw [hfn]
  dsimp only
  simp only [leftSeriesGo]
  rw [matchTok_miss types ST1 t rest hd hx]

theorem numTok_type (s : String) (q : Rat) :
    (numTok s q).type = TokType.NUMBER := rfl

theorem primary_num (f : Nat) (toks : List Token) (pos : Nat)
    (last0 : Option Token) (errs0 : List PError) (nid : Nat)
    (s : String) (q : Rat) (t : Token) (rest : List Token)
    (hd : toks.drop pos = numTok s q :: t :: rest) :
    primaryP (f + 1) ⟨toks, pos, last0, errs0, nid⟩ =
      (.ok (numLit q), ⟨toks, pos + 1, some (numTok s q), errs0, nid⟩) := by
  simp only [primaryP]
  rw [matchTok_miss [.FALSE] (⟨toks, pos, last0, errs0, nid⟩ : PState)
        (numTok s q) _ hd (by rw [numTok_type]; decide)]
  dsimp only
  rw [matchTok_miss [.TRUE] (⟨toks, pos, last0, errs0, nid⟩ : PState)
        (numTok s q) _ hd (by rw [numTok_type]; decide)]
  dsimp only
  rw [matchTok_miss [.NIL] (⟨toks, pos, last0, errs0, nid⟩ : PState)
        (numTok s q) _ hd (by rw [numTok_type]; decide)]
  dsimp only
  rw [matchTok_hit [.NUMBER, .STRING] (⟨toks, pos, last0, errs0, nid⟩ :
        PState) (numTok s q) _ hd (by rw [numTok_type]; decide)
        (by rw [numTok_type]; decide)]
  rfl

theorem call_num (f : Nat) (toks : List Token) (pos : Nat)
    (last0 : Option Token) (errs0 : List PError) (nid : Nat)
    (s : String) (q : Rat) (t : Token) (rest : List Token)
    (hd : toks.drop pos = numTok s q :: t :: rest)
    (ht : t.type = .COMMA ∨ t.type = .RIGHT_PAREN) :
    callP (f + 2) ⟨toks, pos, last0, errs0, nid⟩ =
      (.ok (numLit q), ⟨toks, pos + 1, some (numTok s q), errs0, nid⟩) := by
  have hd1 : toks.drop (pos + 1) = t :: rest :=
    drop_succ_of_drop pos toks _ _ hd
  rw [show f + 2 = (f + 1) + 1 from rfl]
  simp only [callP]
  rw [primary_num f toks pos last0 errs0 nid s q t rest hd]
  dsimp only
  simp only [callLoopP]
  rw [matchTok_miss [.LEFT_PAREN]
        (⟨toks, pos + 1, some (numTok s q), errs0, nid⟩ : PState) t rest hd1
        (sep_miss t _ ht (by decide) (by decide))]

theorem unary_num (f : Nat) (toks : List Token) (pos : Nat)
    (last0 : Option Token) (errs0 : List PError) (nid : Nat)
    (s : String) (q : Rat) (t : Token) (rest : List Token)
    (hd : toks.drop pos = numTok s q :: t :: rest)
    (ht : t.type = .COMMA ∨ t.type = .RIGHT_PAREN) :
    unaryP (f + 3) ⟨toks, pos, last0, errs0, nid⟩ =
      (.ok (numLit q), ⟨toks, pos + 1, some (numTok s q), errs0, nid⟩) := by
  rw [show f + 3 = (f + 2) + 1 from rfl]
  simp only [unaryP]
  rw [matchTok_miss [.BANG, .MINUS] (⟨toks, pos, last0, errs0, nid⟩ :
        PState) (numTok s q) _ hd (by rw [numTok_type]; decide)]
  dsimp only
  exact call_num f toks pos last0 errs0 nid s q t rest hd ht

theorem factor_num (f : Nat) (toks : List Token) (pos : Nat)
    (last0 : Option Token) (errs0 : List PError) (nid : Nat)
    (s : String) (q : Rat) (t : Token) (rest : List Token)
    (hd : toks.drop pos = numTok s q :: t :: rest)
    (ht : t.type = .COMMA ∨ t.type = .RIGHT_PAREN) :
    factorP (f + 4) ⟨toks, pos, last0, errs0, nid⟩ =
      (.ok (numLit q), ⟨toks, pos + 1, some (numTok s q), errs0, nid⟩) := by
  have hd1 : toks.drop (pos + 1) = t :: rest :=
    drop_succ_of_drop pos toks _ _ hd
  rw [show f + 4 = (f + 3) + 1 from rfl]
  simp only [factorP]
  exact leftSeriesP_single _ _ _ (f + 2) _ _ _ t rest
    (unary_num f toks pos last0 errs0 nid s q t rest hd ht) hd1
    (sep_miss t _ ht (by decide) (by decide))

theorem term_num (f : Nat) (toks : List Token) (pos : Nat)
    (last0 : Option Token) (errs0 : List PError) (nid : Nat)
    (s : String) (q : Rat) (t : Token) (rest : List Token)
    (hd : toks.drop pos = numTok s q :: t :: rest)
    (ht : t.type = .COMMA ∨ t.type = .RIGHT_PAREN) :
    termP (f + 5) ⟨toks, pos, last0, errs0, nid⟩ =
      (.ok (numLit q), ⟨toks, pos + 1, some (numTok s q), errs0, nid⟩) := by
  have hd1 : toks.drop (pos + 1) = t :: rest :=
    drop_succ_of_drop pos toks _ _ hd
  rw [show f + 5 = (f + 4) + 1 from rfl]
  simp only [termP]
  exact leftSeriesP_single _ _ _ (f + 3) _ _ _ t rest
    (factor_num f toks pos last0 errs0 nid s q t rest hd ht) hd1
    (sep_miss t _ ht (by decide) (by decide))

theorem comparison_num (f : Nat) (toks : List Token) (pos : Nat)
    (last0 : Option Token) (errs0 : List PError) (nid : Nat)
    (s : String) (q : Rat) (t : Token) (rest : List Token)
    (hd : toks.drop pos = numTok s q :: t :: rest)
    (ht : t.type = .COMMA ∨ t.type = .RIGHT_PAREN) :
    comparisonP (f + 6) ⟨toks, pos, last0, errs0, nid⟩ =
      (.ok (numLit q), ⟨toks, pos + 1, some (numTok s q), errs0, nid⟩) := by
  have hd1 : toks.drop (pos + 1) = t :: rest :=
    drop_succ_of_drop pos toks _ _ hd
  rw [show f + 6 = (f + 5) + 1 from rfl]
  simp only [comparisonP]
  exact leftSeriesP_single _ _ _ (f + 4) _ _ _ t rest
    (term_num f toks pos last0 errs0 nid s q t rest hd ht) hd1
    (sep_miss t _ ht (by decide) (by decide))

theorem equality_num (f : Nat) (toks : List Token) (pos : Nat)
    (last0 : Option Token) (errs0 : List PError) (nid : Nat)
    (s : String) (q : Rat) (t : Token) (rest : List Token)
    (hd : toks.drop pos = numTok s q :: t :: rest)
    (ht : t.type = .COMMA ∨ t.type = .RIGHT_PAREN) :
    equalityP (f + 7) ⟨toks, pos, last0, errs0, nid⟩ =
      (.ok (numLit q), ⟨toks, pos + 1, some (numTok s q), errs0, nid⟩) := by
  have hd1 : toks.drop (pos + 1) = t :: rest :=
    drop_succ_of_drop pos toks _ _ hd
  rw [show f + 7 = (f + 6) + 1 from rfl]
  simp only [equalityP]
  exact leftSeriesP_single _ _ _ (f + 5) _ _ _ t rest
    (comparison_num f toks pos last0 errs0 nid s q t rest hd ht) hd1
    (sep_miss t _ ht (by decide) (by decide))

theorem and_num (f : Nat) (toks : List Token) (pos : Nat)
    (last0 : Option Token) (errs0 : List PError) (nid : Nat)
    (s : String) (q : Rat) (t : Token) (rest : List Token)
    (hd : toks.drop pos = numTok s q :: t :: rest)
    (ht : t.type = .COMMA ∨ t.type = .RIGHT_PAREN) :
    andP (f + 8) ⟨toks, pos, last0, errs0, nid⟩ =
      (.ok (numLit q), ⟨toks, pos + 1, some (numTok s q), errs0, nid⟩) := by
  have hd1 : toks.drop (pos + 1) = t :: rest :=
    drop_succ_of_drop pos toks _ _ hd
  rw [show f + 8 = (f + 7) + 1 from rfl]
  simp only [andP]
  exact leftSeriesP_single _ _ _ (f + 6) _ _ _ t rest
    (equality_num f toks pos last0 errs0 nid s q t rest hd ht) hd1
    (sep_miss t _ ht (by decide) (by decide))

theorem or_num (f : Nat) (toks : List Token) (pos : Nat)
    (last0 : Option Token) (errs0 : List PError) (nid : Nat)
    (s : String) (q : Rat) (t : Token) (rest : List Token)
    (hd : toks.drop pos = numTok s q :: t :: rest)
    (ht : t.type = .COMMA ∨ t.type = .RIGHT_PAREN) :
    orP (f + 9) ⟨toks, pos, last0, errs0, nid⟩ =
      (.ok (numLit q), ⟨toks, pos + 1, some (numTok s q), errs0, nid⟩) := by
  have hd1 : toks.drop (pos + 1) = t :: rest :=
    drop_succ_of_drop pos toks _ _ hd
  rw [show f + 9 = (f + 8) + 1 from rfl]
  simp only [orP]
  exact leftSeriesP_single _ _ _ (f + 7) _ _ _ t rest
    (and_num f toks pos last0 errs0 nid s q t rest hd ht) hd1
    (sep_miss t _ ht (by decide) (by decide))

theorem assignment_num (f : Nat) (toks : List Token) (pos : Nat)
    (last0 : Option Token) (errs0 : List PError) (nid : Nat)
    (s : String) (q : Rat) (t : Token) (rest : List Token)
    (hd : toks.drop pos = numTok s q :: t :: rest)
    (ht : t.type = .COMMA ∨ t.type = .RIGHT_PAREN) :
    assignmentP (f + 10) ⟨toks, pos, last0, errs0, nid⟩ =
      (.ok (numLit q), ⟨toks, pos + 1, some (numTok s q), errs0, nid⟩) := by
  have hd1 : toks.drop (pos + 1) = t :: rest :=
    drop_succ_of_drop pos toks _ _ hd
  rw [show f + 10 = (f + 9) + 1 from rfl]
  simp only [assignmentP]
  rw [or_num f toks pos last0 errs0 nid s q t rest hd ht]
  dsimp only
  rw [matchTok_miss [.EQUAL]
        (⟨toks, pos + 1, some (numTok s q), errs0, nid⟩ : PState) t rest hd1
        (sep_miss t _ ht (by decide) (by decide))]

theorem functionExpr_num (f : Nat) (toks : List Token) (pos : Nat)
    (last0 : Option Token) (errs0 : List PError) (nid : Nat)
    (s : String) (q : Rat) (t : Token) (rest : List Token)
    (hd : toks.drop pos = numTok s q :: t :: rest)
    (ht : t.type = .COMMA ∨ t.type = .RIGHT_PAREN) :
    functionExprP (f + 11) ⟨toks, pos, last0, errs0, nid⟩ =
      (.ok (numLit q), ⟨toks, pos + 1, some (numTok s q), errs0, nid⟩) := by
  rw [show f + 11 = (f + 10) + 1 from rfl]
  simp only [functionExprP]
  rw [matchTok_miss [.FUN] (⟨toks, pos, last0, errs0, nid⟩ : PState)
        (numTok s q) _ hd (by rw [numTok_type]; decide)]
  dsimp only
  exact assignment_num f toks pos last0 errs0 nid s q t rest hd ht

theorem expression_num (f : Nat) (toks : List Token) (pos : Nat)
    (last0 : Option Token) (errs0 : List PError) (nid : Nat)
    (s : String) (q : Rat) (t : Token) (rest : List Token)
    (hd : toks.drop pos = numTok s q :: t :: rest)
    (ht : t.type = .COMMA ∨ t.type = .RIGHT_PAREN) :
    expressionP (f + 12) ⟨toks, pos, last0, errs0, nid⟩ =
      (.ok (numLit q), ⟨toks, pos + 1, some (numTok s q), errs0, nid⟩) := by
  rw [show f + 12 = (f + 11) + 1 from rfl]
  simp only [expressionP]
  exact functionExpr_num f toks pos last0 errs0 nid s q t rest hd ht

/-- The call argument loop over number-literal arguments: the whole
comma-separated argument list parses, and exactly the overflow errors —
one `Can't have more than 255 arguments.` entry per argument past the
255th — are recorded. -/
theorem argLoopP_run :
    ∀ (vals : List (String × Rat)), vals ≠ [] →
      ∀ (acc : List Expr) (toks : List Token) (pos : Nat)
        (last0 : Option Token) (errs0 : List PError) (nid : Nat)
        (fuel : Nat) (t : Token) (ts : List Token),
        vals.length + 13 ≤ fuel →
        toks.drop pos =
          sepByComma (vals.map fun p => numTok p.1 p.2) ++ t :: ts →
        t.type = .RIGHT_PAREN →
        ∃ lst, argLoopP fuel acc ⟨toks, pos, last0, errs0, nid⟩ =
          (.ok (acc ++ vals.map fun p => numLit p.2),
           ⟨toks, pos + (2 * vals.length - 1), lst,
            errs0 ++ overflowErrs "Can't have more than 255 arguments."
              acc.length (vals.map fun p => numTok p.1 p.2), nid⟩) := by
  intro vals
  induction vals with
  | nil => intro h; exact absurd rfl h
  | cons v rest ih =>
      intro _ acc toks pos last0 errs0 nid fuel t ts hfuel hdrop ht
      cases fuel with
      | zero => simp at hfuel
      | succ F =>
          cases rest with
          | nil =>
              have hd : toks.drop pos = numTok v.1 v.2 :: t :: ts := by
                simpa [sepByComma] using hdrop
              have hd1 : toks.drop (pos + 1) = t :: ts :=
                drop_succ_of_drop pos toks _ _ hd
              refine ⟨some (numTok v.1 v.2), ?_⟩
              simp only [argLoopP]
              rw [peekTok_of_drop (⟨toks, pos, last0, errs0, nid⟩ : PState)
                    (numTok v.1 v.2) _ hd]
              dsimp only
              rw [← apply_ite Except.ok, guard_state_eq]
              dsimp only
              rw [show F = (F - 12) + 12 from by omega]
              rw [expression_num (F - 12) toks pos last0
                    (errs0 ++ (if acc.length ≥ 255 then
                      [parseErrorOf (numTok v.1 v.2)
                        "Can't have more than 255 arguments."] else []))
                    nid v.1 v.2 t ts hd (Or.inr ht)]
              dsimp only
              rw [matchTok_miss [.COMMA]
                    (⟨toks, pos + 1, some (numTok v.1 v.2),
                      errs0 ++ (if acc.length ≥ 255 then
                        [parseErrorOf (numTok v.1 v.2)
                          "Can't have more than 255 arguments."] else []),
                      nid⟩ : PState) t ts hd1
                    (comma_miss t (by rw [ht]; decide))]
              simp only [List.map_cons, List.map_nil, overflowErrs,
                List.append_nil]
              rfl
          | cons w ws =>
              have hd : toks.drop pos = numTok v.1 v.2 :: commaTok ::
                  (sepByComma ((w :: ws).map fun p => numTok p.1 p.2) ++
                    t :: ts) := by
                simpa [sepByComma] using hdrop
              have hd1 : toks.drop (pos + 1) = commaTok ::
                  (sepByComma ((w :: ws).map fun p => numTok p.1 p.2) ++
                    t :: ts) :=
                drop_succ_of_drop pos toks _ _ hd
              have hd2 : toks.drop (pos + 2) =
                  sepByComma ((w :: ws).map fun p => numTok p.1 p.2) ++
                    t :: ts :=
                drop_succ_of_drop (pos + 1) toks _ _ hd1
              obtain ⟨lst, hrun⟩ := ih (by simp)
                (acc ++ [numLit v.2]) toks (pos + 2) (some commaTok)
                (errs0 ++ (if acc.length ≥ 255 then
                  [parseErrorOf (numTok v.1 v.2)
                    "Can't have more than 255 arguments."] else []))
                nid ((F - 12) + 12) t ts
                (by simp only [List.length_cons] at hfuel ⊢; omega) hd2 ht
              refine ⟨lst, ?_⟩
              simp only [argLoopP]
              rw [peekTok_of_drop (⟨toks, pos, last0, errs0, nid⟩ : PState)
                    (numTok v.1 v.2) _ hd]
              dsimp only
              rw [← apply_ite Except.ok, guard_state_eq]
              dsimp only
              rw [show F = (F - 12) + 12 from by omega]
              rw [expression_num (F - 12) toks pos last0
                    (errs0 ++ (if acc.length ≥ 255 then
                      [parseErrorOf (numTok v.1 v.2)
                        "Can't have more than 255 arguments."] else []))
                    nid v.1 v.2 commaTok _ hd (Or.inl rfl)]
              dsimp only
              rw [matchTok_hit [.COMMA]
                    (⟨toks, pos + 1, some (numTok v.1 v.2),
                      errs0 ++ (if acc.length ≥ 255 then
                        [parseErrorOf (numTok v.1 v.2)
                          "Can't have more than 255 arguments."] else []),
                      nid⟩ : PState) commaTok _ hd1 (by decide) (by decide)]
              dsimp only
              rw [show pos + 1 + 1 = pos + 2 from rfl]
              rw [hrun]
              congr 1
              · simp
              · congr 1
                · simp only [List.length_cons]
                  omega
                · simp [overflowErrs, List.append_assoc]

/-- C10.  Parsing an anonymous function expression `fun (params) {}` at
expression position never records a `Can't have more than 255
parameters.` error: for any number of parameters the parse succeeds with
an empty recorded-error list.  The 255-element limit is enforced, as a
recorded non-fatal error, by the named function declaration's parameter
loop and by the call argument loop: starting from an empty accumulator
each consumes its whole comma-separated list and records exactly the
overflow errors, which are non-empty precisely when the list holds more
than 255 elements. -/
theorem anonymous_params_unlimited (names : List Token)
    (vals : List (String × Rat))
    (htypes : ∀ t ∈ names, t.type = .IDENTIFIER) :
    (∃ p, expressionP (names.length + 8) (initPState (funExprToks names)) =
        (.ok (.anonymousFunction names []),
         ⟨funExprToks names, p, some rbraceTok, [], 0⟩))
    ∧ (names ≠ [] →
        ∀ (toks : List Token) (pos : Nat) (last0 : Option Token)
          (errs0 : List PError) (nid fuel : Nat) (t : Token)
          (ts : List Token),
          names.length ≤ fuel →
          toks.drop pos = sepByComma names ++ t :: ts →
          t.type ≠ .COMMA →
          ∃ lst, paramLoopD fuel [] ⟨toks, pos, last0, errs0, nid⟩ =
            (.ok names,
             ⟨toks, pos + (2 * names.length - 1), lst,
              errs0 ++ overflowErrs "Can't have more than 255 parameters."
                0 names, nid⟩))
    ∧ (vals ≠ [] →
        ∀ (toks : List Token) (pos : Nat) (last0 : Option Token)
          (errs0 : List PError) (nid fuel : Nat) (t : Token)
          (ts : List Token),
          vals.length + 13 ≤ fuel →
          toks.drop pos =
            sepByComma (vals.map fun p => numTok p.1 p.2) ++ t :: ts →
          t.type = .RIGHT_PAREN →
          ∃ lst, argLoopP fuel [] ⟨toks, pos, last0, errs0, nid⟩ =
            (.ok (vals.map fun p => numLit p.2),
             ⟨toks, pos + (2 * vals.length - 1), lst,
              errs0 ++ overflowErrs "Can't have more than 255 arguments."
                0 (vals.map fun p => numTok p.1 p.2), nid⟩))
    ∧ (overflowErrs "Can't have more than 255 parameters." 0 names = [] ↔
        names.length ≤ 255)
    ∧ (overflowErrs "Can't have more than 255 arguments." 0
        (vals.map fun p => numTok p.1 p.2) = [] ↔ vals.length ≤ 255) := by
  refine ⟨functionExpr_run names htypes, ?_, ?_,
    overflowErrs_nil_iff _ _, ?_⟩
  · intro hne toks pos last0 errs0 nid fuel t ts hfuel hdrop ht
    exact paramLoopD_run names hne htypes [] toks pos last0 errs0 nid
      fuel t ts hfuel hdrop ht
  · intro hne toks pos last0 errs0 nid fuel t ts hfuel hdrop ht
    exact argLoopP_run vals hne [] toks pos last0 errs0 nid
      fuel t ts hfuel hdrop ht
  · have h := overflowErrs_nil_iff "Can't have more than 255 arguments."
      (vals.map fun p => numTok p.1 p.2)
    rw [List.length_map] at h
    exact h

/-- Witness for C10 at 300 parameters and 300 number-literal arguments:
the anonymous function parse succeeds with an empty recorded-error list,
while the overflow error lists of the named-declaration and call paths
are non-empty. -/
theorem anonymous_params_unlimited_witness :
    (∃ p, expressionP ((List.replicate 300 pTok).length + 8)
        (initPState (funExprToks (List.replicate 300 pTok))) =
      (.ok (.anonymousFunction (List.replicate 300 pTok) []),
       ⟨funExprToks (List.replicate 300 pTok), p, some rbraceTok, [], 0⟩))
    ∧ overflowErrs "Can't have more than 255 parameters." 0
        (List.replicate 300 pTok) ≠ []
    ∧ overflowErrs "Can't have more than 255 arguments." 0
        ((List.replicate 300 ("1", (1 : Rat))).map
          fun p => numTok p.1 p.2) ≠ [] := by
  have h := anonymous_params_unlimited (List.replicate 300 pTok)
    (List.replicate 300 ("1", (1 : Rat)))
    (by intro t htm; rw [List.eq_of_mem_replicate htm]; rfl)
  refine ⟨h.1, ?_, ?_⟩
  · rw [ne_eq, h.2.2.2.1, List.length_replicate]
    decide
  · rw [ne_eq, h.2.2.2.2, List.length_replicate]
    decide

end BunLox
